import Mathlib

/-!
Verification development for the InfraScan submission codec and validator.

The development shallowly embeds the TypeScript sources:
  * the multi-format validator `audit` and its helpers
    (src/task/2-submission.ts),
  * the 512-byte-bounded encoder `submission` / `createOptimizedSubmission`,
  * the static-hardware change-detection cache
    (src/task/static-cache-manager.ts, hardware-detection.ts).

Modelling conventions:
  * JSON values are the inductive `JVal`; JavaScript numbers are modelled as
    `Int` (every bound and boundary value in the checked properties is an
    integer; fractional JSON numbers and float rounding are outside the model,
    which is noted where relevant).
  * `JSON.stringify` is modelled by `jrender` (insertion-ordered keys, the
    standard escape table, no whitespace); `JSON.parse` by the fueled `jparse`
    over the same grammar.  Strings are treated as sequences of Unicode BMP
    code points, where JavaScript UTF-16 lengths and Lean code-point lengths
    agree.
  * JavaScript exceptions are modelled with `Except Unit`; a try/catch is a
    `match` on the result.  Fields whose types the format guards do not check
    are kept as raw `Option JVal` and accessed through coercion helpers that
    mirror the JavaScript operator semantics used by the validator.
-/

/-- A JSON value: the result of a successful `JSON.parse`. Objects keep their
members in textual order; duplicate keys are resolved last-wins on lookup,
as `JSON.parse` does. -/
inductive JVal where
  | null
  | bool (b : Bool)
  | num (n : Int)
  | str (s : String)
  | arr (items : List JVal)
  | obj (fields : List (String × JVal))

/-- Whether the value is JavaScript `null`. -/
def JVal.isNull : JVal → Bool
  | .null => true
  | _ => false

/-- Last-wins lookup of a key among object members, as JavaScript property
assignment order makes the final duplicate win. -/
def fieldGet : List (String × JVal) → String → Option JVal
  | [], _ => none
  | (k0, v0) :: rest, k =>
      match fieldGet rest k with
      | some r => some r
      | none => if k0 = k then some v0 else none

/-- Property access `v.k`: `none` models JavaScript `undefined`. Non-object
receivers yield `undefined` for the property names the validator reads. -/
def JVal.getF : JVal → String → Option JVal
  | .obj fs, k => fieldGet fs k
  | _, _ => none

/-- Two-level property access `v.k1.k2` when `v.k1` is an object. -/
def JVal.getF2 (v : JVal) (k1 k2 : String) : Option JVal :=
  match v.getF k1 with
  | some w => w.getF k2
  | none => none

/-- JavaScript truthiness of a value. -/
def JVal.truthy : JVal → Bool
  | .null => false
  | .bool b => b
  | .num n => n != 0
  | .str s => s != ""
  | .arr _ => true
  | .obj _ => true

/-- Truthiness of a possibly-absent value (`undefined` is falsy). -/
def truthyOpt : Option JVal → Bool
  | none => false
  | some v => v.truthy

/-- Whether `typeof v === 'object'` holds (true for objects, arrays and
`null`, as in JavaScript). -/
def JVal.isObjectType : JVal → Bool
  | .null => true
  | .arr _ => true
  | .obj _ => true
  | _ => false

/-- Whether the value is a number (`typeof v === 'number'`). -/
def isNumOpt : Option JVal → Bool
  | some (.num _) => true
  | _ => false

/-- Whether the value is a string (`typeof v === 'string'`). -/
def isStrOpt : Option JVal → Bool
  | some (.str _) => true
  | _ => false

/-- JavaScript `String.prototype.trim`: strip leading and trailing
whitespace (modelled structurally so it evaluates). -/
def jsTrim (s : String) : String :=
  ⟨((s.data.dropWhile Char.isWhitespace).reverse.dropWhile Char.isWhitespace).reverse⟩

/-- JavaScript `ToNumber` coercion, with `none` standing for `NaN`.
Strings coerce through their decimal reading; the model covers optionally
signed integer numerals (exact fractional strings are outside the integer
model and map to `NaN`). Arrays and plain objects map to `NaN` (the model
omits the single-element-array corner of `ToPrimitive`). -/
def jsToNumber : Option JVal → Option Int
  | none => none
  | some .null => some 0
  | some (.bool b) => some (if b then 1 else 0)
  | some (.num n) => some n
  | some (.str s) =>
      let t := jsTrim s
      if t = "" then some 0
      else
        let (sgn, ds) :=
          match t.data with
          | c :: rest =>
              if c = Char.ofNat 45 then ((-1 : Int), rest)
              else if c = Char.ofNat 43 then (1, rest)
              else (1, c :: rest)
          | [] => (1, [])
        if ds ≠ [] ∧ ds.all (fun c => (Char.ofNat 48) ≤ c ∧ c ≤ (Char.ofNat 57)) then
          some (sgn * (ds.foldl (fun a c => a * 10 + (c.toNat - 48)) 0 : Nat))
        else none
  | some (.arr _) => none
  | some (.obj _) => none

/-- JavaScript `<` against a number literal (`NaN` comparisons are false). -/
def jsLtNum (v : Option JVal) (k : Int) : Bool :=
  match jsToNumber v with
  | some n => n < k
  | none => false

/-- JavaScript `>` against a number literal (`NaN` comparisons are false). -/
def jsGtNum (v : Option JVal) (k : Int) : Bool :=
  match jsToNumber v with
  | some n => n > k
  | none => false

/-- The `.length` property of a possibly-absent value: strings and arrays
have one, everything else gives `undefined`. -/
def jsLengthOf : Option JVal → Option Int
  | some (.str s) => some s.length
  | some (.arr items) => some items.length
  | _ => none

/-- Whether the character list `needle` occurs contiguously inside `hay`,
the semantics of JavaScript `String.prototype.includes`. -/
def containsSeq (needle : List Char) : List Char → Bool
  | [] => needle.isEmpty
  | c :: rest => needle.isPrefixOf (c :: rest) || containsSeq needle rest

/-- JavaScript `hay.includes(needle)` on strings. -/
def strIncludes (hay needle : String) : Bool :=
  containsSeq needle.data hay.data

/-- JavaScript `s.substring(0, k)`: the first `k` code units. -/
def jsSubstring (s : String) (k : Nat) : String :=
  ⟨s.data.take k⟩

/-! ### A model of `JSON.stringify`

Renders with insertion-ordered keys, no whitespace, and the standard
escape table, producing a `List Char` (`jrender` wraps it as a `String`). -/

/-- The structural characters, named so the file avoids brace literals. -/
def chQuote : Char := Char.ofNat 34
def chBslash : Char := Char.ofNat 92
def chLBrace : Char := Char.ofNat 123
def chRBrace : Char := Char.ofNat 125
def chLBrack : Char := Char.ofNat 91
def chRBrack : Char := Char.ofNat 93
def chMinus : Char := Char.ofNat 45

/-- Lower-case hexadecimal digit for `n < 16`. -/
def hexDigitChar (n : Nat) : Char :=
  if n < 10 then Char.ofNat (48 + n) else Char.ofNat (87 + n)

/-- The escape `JSON.stringify` applies to one character: named escapes for
quote, backslash and the five short control characters, `\u00xx` for the
remaining control characters, and the character itself otherwise. -/
def jescape (c : Char) : List Char :=
  if c = chQuote then [chBslash, chQuote]
  else if c = chBslash then [chBslash, chBslash]
  else if c = Char.ofNat 8 then [chBslash, 'b']
  else if c = Char.ofNat 9 then [chBslash, 't']
  else if c = Char.ofNat 10 then [chBslash, 'n']
  else if c = Char.ofNat 12 then [chBslash, 'f']
  else if c = Char.ofNat 13 then [chBslash, 'r']
  else if c.toNat < 32 then
    [chBslash, 'u', '0', '0', hexDigitChar (c.toNat / 16), hexDigitChar (c.toNat % 16)]
  else [c]

/-- A rendered string literal: quote, escaped body, quote. -/
def strLit (s : String) : List Char :=
  chQuote :: (s.data.flatMap jescape ++ [chQuote])

/-- Digit-character accumulator: peels decimal digits of `n` onto `acc`,
least significant first, so `acc` ends most significant first. -/
def natCharsGo : Nat → Nat → List Char → List Char
  | 0, _, acc => acc
  | fuel + 1, n, acc =>
      if n = 0 then acc
      else natCharsGo fuel (n / 10) (Char.ofNat (48 + n % 10) :: acc)

/-- Decimal digit characters of a natural number, most significant first. -/
def natChars (n : Nat) : List Char :=
  if n = 0 then ['0'] else natCharsGo (n + 1) n []

/-- Decimal rendering of an integer, as JavaScript prints safe integers. -/
def intChars (i : Int) : List Char :=
  (if i < 0 then [chMinus] else []) ++ natChars i.natAbs

mutual

/-- Render a JSON value as `JSON.stringify` does (no spacing argument). -/
def jrenderL : JVal → List Char
  | .null => "null".data
  | .bool true => "true".data
  | .bool false => "false".data
  | .num n => intChars n
  | .str s => strLit s
  | .arr items => chLBrack :: (renderItems items ++ [chRBrack])
  | .obj fs => chLBrace :: (renderFields fs ++ [chRBrace])

/-- Comma-separated rendering of array elements. -/
def renderItems : List JVal → List Char
  | [] => []
  | v :: rest => jrenderL v ++ renderItemsTail rest

/-- The tail of an element list, each preceded by a comma. -/
def renderItemsTail : List JVal → List Char
  | [] => []
  | v :: rest => ',' :: (jrenderL v ++ renderItemsTail rest)

/-- Comma-separated rendering of object members. -/
def renderFields : List (String × JVal) → List Char
  | [] => []
  | (k, v) :: rest => strLit k ++ ':' :: (jrenderL v ++ renderFieldsTail rest)

/-- The tail of a member list, each preceded by a comma. -/
def renderFieldsTail : List (String × JVal) → List Char
  | [] => []
  | (k, v) :: rest => ',' :: (strLit k ++ ':' :: (jrenderL v ++ renderFieldsTail rest))

end

/-- Render a JSON value to a string. -/
def jrender (v : JVal) : String := ⟨jrenderL v⟩

/-! ### A model of `JSON.parse`

A recursive-descent parser over the same grammar, total by structural
recursion on a fuel counter.  Numeric tokens cover optionally signed
integer numerals; a fractional or exponent suffix makes the parse fail,
reflecting that non-integer numbers are outside this integer model. -/

/-- Drop leading JSON whitespace. -/
def wsSkip : List Char → List Char
  | c :: rest =>
      if c = Char.ofNat 32 ∨ c = Char.ofNat 9 ∨ c = Char.ofNat 10 ∨ c = Char.ofNat 13 then
        wsSkip rest
      else c :: rest
  | [] => []

/-- Whether a character is a decimal digit. -/
def isDigitCh (c : Char) : Bool :=
  48 ≤ c.toNat && c.toNat ≤ 57

/-- The value of a hexadecimal digit character, if it is one. -/
def hexNibble (c : Char) : Option Nat :=
  if 48 ≤ c.toNat ∧ c.toNat ≤ 57 then some (c.toNat - 48)
  else if 97 ≤ c.toNat ∧ c.toNat ≤ 102 then some (c.toNat - 87)
  else if 65 ≤ c.toNat ∧ c.toNat ≤ 70 then some (c.toNat - 55)
  else none

/-- The single-character escapes accepted after a backslash. -/
def unescapeCh (c : Char) : Option Char :=
  if c = chQuote then some chQuote
  else if c = chBslash then some chBslash
  else if c = '/' then some '/'
  else if c = 'b' then some (Char.ofNat 8)
  else if c = 'f' then some (Char.ofNat 12)
  else if c = 'n' then some (Char.ofNat 10)
  else if c = 'r' then some (Char.ofNat 13)
  else if c = 't' then some (Char.ofNat 9)
  else none

/-- Parse a string-literal body after its opening quote, unescaping as it
goes; returns the string and the input after the closing quote. -/
def strBody (acc : List Char) : List Char → Option (String × List Char)
  | c :: rest =>
      if c = chQuote then some (⟨acc.reverse⟩, rest)
      else if c = chBslash then
        match rest with
        | e :: rest2 =>
            if e = 'u' then
              match rest2 with
              | a :: b :: c2 :: d :: rest3 =>
                  match hexNibble a, hexNibble b, hexNibble c2, hexNibble d with
                  | some va, some vb, some vc, some vd =>
                      strBody (Char.ofNat (((va * 16 + vb) * 16 + vc) * 16 + vd) :: acc) rest3
                  | _, _, _, _ => none
              | _ => none
            else
              match unescapeCh e with
              | some ch => strBody (ch :: acc) rest2
              | none => none
        | [] => none
      else strBody (c :: acc) rest
  | [] => none

/-- Split a maximal run of digit characters off the front of the input. -/
def grabDigits : List Char → List Char × List Char
  | c :: rest =>
      if isDigitCh c then
        let p := grabDigits rest
        (c :: p.1, p.2)
      else ([], c :: rest)
  | [] => ([], [])

/-- The numeric value of a big-endian digit-character run. -/
def digitsVal (ds : List Char) : Nat :=
  ds.foldl (fun a c => a * 10 + (c.toNat - 48)) 0

/-- Read the digit run of a numeral and apply the sign, failing on an empty
run or on a fractional or exponent continuation. -/
def parseIntDigits (neg : Bool) (cs : List Char) : Option (Int × List Char) :=
  match grabDigits cs with
  | ([], _) => none
  | (d :: ds, rest) =>
      let val : Int := (if neg then -1 else 1) * (digitsVal (d :: ds) : Int)
      match rest with
      | c :: _ =>
          if c = '.' ∨ c = 'e' ∨ c = 'E' then none
          else some (val, rest)
      | [] => some (val, rest)

/-- Parse an integer numeral: optional minus sign, then digits. -/
def parseIntTok : List Char → Option (Int × List Char)
  | c :: rest =>
      if c = chMinus then parseIntDigits true rest
      else parseIntDigits false (c :: rest)
  | [] => none

/-- Strip an expected literal character sequence off the input. -/
def stripSeq : List Char → List Char → Option (List Char)
  | [], cs => some cs
  | l :: lit, c :: cs => if c = l then stripSeq lit cs else none
  | _ :: _, [] => none

mutual

/-- Parse one JSON value; fuel makes the recursion structural. -/
def jparseV : Nat → List Char → Option (JVal × List Char)
  | 0, _ => none
  | fuel + 1, cs =>
    match wsSkip cs with
    | c :: rest =>
        if c = 'n' then
          match stripSeq ['u', 'l', 'l'] rest with
          | some r => some (.null, r)
          | none => none
        else if c = 't' then
          match stripSeq ['r', 'u', 'e'] rest with
          | some r => some (.bool true, r)
          | none => none
        else if c = 'f' then
          match stripSeq ['a', 'l', 's', 'e'] rest with
          | some r => some (.bool false, r)
          | none => none
        else if c = chQuote then
          match strBody [] rest with
          | some (s, r) => some (.str s, r)
          | none => none
        else if c = chLBrack then
          match wsSkip rest with
          | c2 :: rest2 =>
              if c2 = chRBrack then some (.arr [], rest2)
              else
                match jparseItems fuel (c2 :: rest2) with
                | some (vs, r) => some (.arr vs, r)
                | none => none
          | [] => none
        else if c = chLBrace then
          match wsSkip rest with
          | c2 :: rest2 =>
              if c2 = chRBrace then some (.obj [], rest2)
              else
                match jparseFields fuel (c2 :: rest2) with
                | some (fs, r) => some (.obj fs, r)
                | none => none
          | [] => none
        else if c = chMinus ∨ isDigitCh c then
          match parseIntTok (c :: rest) with
          | some (n, r) => some (.num n, r)
          | none => none
        else none
    | [] => none

/-- Parse one-or-more comma-separated array elements up to the closing
bracket (the empty array is handled by `jparseV`). -/
def jparseItems : Nat → List Char → Option (List JVal × List Char)
  | 0, _ => none
  | fuel + 1, cs =>
    match jparseV fuel cs with
    | some (v, r) =>
        match wsSkip r with
        | c :: rest =>
            if c = ',' then
              match jparseItems fuel rest with
              | some (vs, r2) => some (v :: vs, r2)
              | none => none
            else if c = chRBrack then some ([v], rest)
            else none
        | [] => none
    | none => none

/-- Parse one-or-more comma-separated object members up to the closing
brace (the empty object is handled by `jparseV`). -/
def jparseFields : Nat → List Char → Option (List (String × JVal) × List Char)
  | 0, _ => none
  | fuel + 1, cs =>
    match wsSkip cs with
    | c :: rest =>
        if c = chQuote then
          match strBody [] rest with
          | some (k, r1) =>
              match wsSkip r1 with
              | c2 :: r2 =>
                  if c2 = ':' then
                    match jparseV fuel r2 with
                    | some (v, r3) =>
                        match wsSkip r3 with
                        | c3 :: r4 =>
                            if c3 = ',' then
                              match jparseFields fuel r4 with
                              | some (fs, r5) => some ((k, v) :: fs, r5)
                              | none => none
                            else if c3 = chRBrace then some ([(k, v)], r4)
                            else none
                        | [] => none
                    | none => none
                  else none
              | [] => none
          | none => none
        else none
    | [] => none

end

/-- The model of `JSON.parse`: parse a whole document, requiring only
whitespace after the value. -/
def jparse (s : String) : Option JVal :=
  match jparseV (s.data.length + 1) s.data with
  | some (v, rest) => if wsSkip rest = [] then some v else none
  | none => none

/-! ### Round-trip: `jparse` inverts `jrender`

The lemmas below culminate in `jparse_jrender`: parsing a rendered value
recovers it exactly.  They justify composing the encoder model with the
validator model through the wire string. -/

theorem char_ne_of_toNat_ne {c d : Char} (h : c.toNat ≠ d.toNat) : c ≠ d :=
  fun hc => h (congrArg Char.toNat hc)

theorem isDigitCh_toNat {c : Char} (h : isDigitCh c = true) :
    48 ≤ c.toNat ∧ c.toNat ≤ 57 := by
  simpa [isDigitCh] using h

theorem digitChar_spec (d : Nat) (h : d < 10) :
    isDigitCh (Char.ofNat (48 + d)) = true ∧ (Char.ofNat (48 + d)).toNat = 48 + d := by
  have hd : d = 0 ∨ d = 1 ∨ d = 2 ∨ d = 3 ∨ d = 4 ∨ d = 5 ∨ d = 6 ∨ d = 7 ∨ d = 8 ∨ d = 9 := by
    omega
  rcases hd with rfl | rfl | rfl | rfl | rfl | rfl | rfl | rfl | rfl | rfl <;> exact ⟨by decide, by decide⟩

theorem natCharsGo_eq (fuel : Nat) : ∀ (n : Nat) (acc : List Char), n ≤ fuel →
    natCharsGo fuel n acc
      = (if n = 0 then []
         else ((Nat.digits 10 n).map (fun d => Char.ofNat (48 + d))).reverse) ++ acc := by
  induction fuel with
  | zero =>
      intro n acc h
      have h0 : n = 0 := by omega
      subst h0
      simp [natCharsGo]
  | succ f ih =>
      intro n acc h
      by_cases h0 : n = 0
      · subst h0
        simp [natCharsGo]
      · simp only [natCharsGo, if_neg h0]
        rw [ih (n / 10) _ (by
          have := Nat.div_lt_self (Nat.pos_of_ne_zero h0) (by norm_num : 1 < 10)
          omega)]
        rw [Nat.digits_def' (by norm_num : 1 < 10) (Nat.pos_of_ne_zero h0)]
        by_cases h10 : n / 10 = 0
        · simp [h10]
        · simp [if_neg h10, List.map_cons, List.reverse_cons, List.append_assoc]

/-- The structural digit renderer agrees with the `Nat.digits` description. -/
theorem natChars_eq_digits (n : Nat) :
    natChars n = if n = 0 then ['0']
      else ((Nat.digits 10 n).map (fun d => Char.ofNat (48 + d))).reverse := by
  unfold natChars
  by_cases h0 : n = 0
  · simp [h0]
  · rw [if_neg h0, if_neg h0, natCharsGo_eq (n + 1) n [] (by omega), if_neg h0,
      List.append_nil]

theorem natChars_all_digits (n : Nat) : ∀ c ∈ natChars n, isDigitCh c = true := by
  intro c hc
  rw [natChars_eq_digits] at hc
  by_cases h0 : n = 0
  · simp [h0] at hc
    subst hc; decide
  · simp only [if_neg h0, List.mem_reverse, List.mem_map] at hc
    obtain ⟨d, hd, rfl⟩ := hc
    exact (digitChar_spec d (Nat.digits_lt_base (by norm_num) hd)).1

theorem natChars_ne_nil (n : Nat) : natChars n ≠ [] := by
  rw [natChars_eq_digits]
  by_cases h0 : n = 0
  · simp [h0]
  · simp only [if_neg h0, ne_eq, List.reverse_eq_nil_iff, List.map_eq_nil_iff]
    exact Nat.digits_ne_nil_iff_ne_zero.mpr h0

theorem foldr_digit_chars (ds : List Nat) (h : ∀ d ∈ ds, d < 10) :
    (ds.map (fun d => Char.ofNat (48 + d))).foldr
        (fun c acc => acc * 10 + (c.toNat - 48)) 0 = Nat.ofDigits 10 ds := by
  induction ds with
  | nil => simp [Nat.ofDigits]
  | cons d rest ih =>
      have hd := (digitChar_spec d (h d (by simp))).2
      simp only [List.map_cons, List.foldr_cons, Nat.ofDigits_cons,
        ih (fun x hx => h x (by simp [hx]))]
      omega

theorem digitsVal_natChars (n : Nat) : digitsVal (natChars n) = n := by
  rw [natChars_eq_digits]
  unfold digitsVal
  by_cases h0 : n = 0
  · subst h0; decide
  · rw [if_neg h0, List.foldl_reverse]
    have := foldr_digit_chars (Nat.digits 10 n)
      (fun d hd => Nat.digits_lt_base (by norm_num) hd)
    simpa [Nat.ofDigits_digits] using this

/-- A continuation that cannot extend a numeric token: empty input or a head
that is no digit and none of the dot and exponent markers.  Every delimiter
the renderer emits after a number qualifies. -/
def numDelim : List Char → Bool
  | [] => true
  | c :: _ => !(isDigitCh c || c == '.' || c == 'e' || c == 'E')

theorem numDelim_head {c : Char} {t : List Char} (h : numDelim (c :: t) = true) :
    isDigitCh c = false ∧ c ≠ '.' ∧ c ≠ 'e' ∧ c ≠ 'E' := by
  simp only [numDelim, Bool.not_eq_true', Bool.or_eq_false_iff, beq_eq_false_iff_ne] at h
  exact ⟨h.1.1.1, h.1.1.2, h.1.2, h.2⟩

theorem grabDigits_stop {cs : List Char} (h : numDelim cs = true) :
    grabDigits cs = ([], cs) := by
  cases cs with
  | nil => rfl
  | cons c t =>
      have hc := (numDelim_head h).1
      simp [grabDigits, hc]

theorem grabDigits_run (ds : List Char) (hds : ∀ c ∈ ds, isDigitCh c = true)
    (rest : List Char) (hrest : grabDigits rest = ([], rest)) :
    grabDigits (ds ++ rest) = (ds, rest) := by
  induction ds with
  | nil => simpa using hrest
  | cons c t ih =>
      have hc : isDigitCh c = true := hds c (by simp)
      have ht := ih (fun x hx => hds x (by simp [hx]))
      simp [grabDigits, hc, ht]

theorem digit_ne_minus {c : Char} (h : isDigitCh c = true) : c ≠ chMinus := by
  have hc := isDigitCh_toNat h
  have h45 : chMinus.toNat = 45 := by decide
  exact char_ne_of_toNat_ne (by omega)

theorem parseIntDigits_run (neg : Bool) (n : Nat) (rest : List Char)
    (hr : numDelim rest = true) :
    parseIntDigits neg (natChars n ++ rest)
      = some ((if neg then -1 else 1) * (n : Int), rest) := by
  have hgrab : grabDigits (natChars n ++ rest) = (natChars n, rest) :=
    grabDigits_run _ (natChars_all_digits _) _ (grabDigits_stop hr)
  obtain ⟨d0, ds0, hnc⟩ : ∃ d0 ds0, natChars n = d0 :: ds0 := by
    cases h : natChars n with
    | nil => exact absurd h (natChars_ne_nil _)
    | cons a b => exact ⟨a, b, rfl⟩
  have hval : ((digitsVal (d0 :: ds0) : Nat) : Int) = (n : Int) := by
    rw [← hnc, digitsVal_natChars]
  rw [parseIntDigits, hgrab, hnc]
  cases rest with
  | nil => simp [hval]
  | cons c t =>
      obtain ⟨_, hdot, he, hE⟩ := numDelim_head hr
      simp [hdot, he, hE, hval]

theorem parseIntTok_intChars (i : Int) (rest : List Char) (hr : numDelim rest = true) :
    parseIntTok (intChars i ++ rest) = some (i, rest) := by
  by_cases hneg : i < 0
  · have harg : intChars i ++ rest = chMinus :: (natChars i.natAbs ++ rest) := by
      simp [intChars, hneg]
    rw [harg, parseIntTok, if_pos rfl,
      parseIntDigits_run true i.natAbs rest hr]
    have h2 : ((if (true : Bool) = true then (-1 : Int) else 1) * (i.natAbs : Int)) = i := by
      rw [if_pos rfl]; omega
    rw [h2]
  · obtain ⟨d0, ds0, hnc⟩ : ∃ d0 ds0, natChars i.natAbs = d0 :: ds0 := by
      cases h : natChars i.natAbs with
      | nil => exact absurd h (natChars_ne_nil _)
      | cons a b => exact ⟨a, b, rfl⟩
    have hd0 : isDigitCh d0 = true := natChars_all_digits _ d0 (by rw [hnc]; simp)
    have harg : intChars i ++ rest = d0 :: (ds0 ++ rest) := by
      simp [intChars, hneg, hnc]
    rw [harg, parseIntTok, if_neg (digit_ne_minus hd0)]
    have hback : d0 :: (ds0 ++ rest) = natChars i.natAbs ++ rest := by
      simp [hnc]
    rw [hback, parseIntDigits_run false i.natAbs rest hr]
    have h2 : ((if (false : Bool) = true then (-1 : Int) else 1) * (i.natAbs : Int)) = i := by
      rw [if_neg (by decide)]; omega
    rw [h2]

theorem hexNibble_hexDigitChar (m : Nat) (h : m < 16) :
    hexNibble (hexDigitChar m) = some m := by
  have hm : m = 0 ∨ m = 1 ∨ m = 2 ∨ m = 3 ∨ m = 4 ∨ m = 5 ∨ m = 6 ∨ m = 7 ∨ m = 8 ∨ m = 9 ∨
      m = 10 ∨ m = 11 ∨ m = 12 ∨ m = 13 ∨ m = 14 ∨ m = 15 := by omega
  rcases hm with rfl | rfl | rfl | rfl | rfl | rfl | rfl | rfl | rfl | rfl | rfl | rfl | rfl |
    rfl | rfl | rfl <;> decide

theorem strBody_esc2 (acc : List Char) (e ch : Char) (rest : List Char)
    (hu : e ≠ 'u') (hun : unescapeCh e = some ch) :
    strBody acc (chBslash :: e :: rest) = strBody (ch :: acc) rest := by
  rw [strBody.eq_def]
  have h1 : ¬ chBslash = chQuote := by decide
  simp [h1, hu, hun]

theorem strBody_jescape (c : Char) (acc rest : List Char) :
    strBody acc (jescape c ++ rest) = strBody (c :: acc) rest := by
  by_cases h1 : c = chQuote
  · subst h1
    rw [show jescape chQuote = [chBslash, chQuote] from by decide, List.cons_append,
      List.cons_append, List.nil_append]
    exact strBody_esc2 acc chQuote chQuote rest (by decide) (by decide)
  by_cases h2 : c = chBslash
  · subst h2
    rw [show jescape chBslash = [chBslash, chBslash] from by decide, List.cons_append,
      List.cons_append, List.nil_append]
    exact strBody_esc2 acc chBslash chBslash rest (by decide) (by decide)
  by_cases h3 : c = Char.ofNat 8
  · subst h3
    rw [show jescape (Char.ofNat 8) = [chBslash, 'b'] from by decide, List.cons_append,
      List.cons_append, List.nil_append]
    exact strBody_esc2 acc 'b' (Char.ofNat 8) rest (by decide) (by decide)
  by_cases h4 : c = Char.ofNat 9
  · subst h4
    rw [show jescape (Char.ofNat 9) = [chBslash, 't'] from by decide, List.cons_append,
      List.cons_append, List.nil_append]
    exact strBody_esc2 acc 't' (Char.ofNat 9) rest (by decide) (by decide)
  by_cases h5 : c = Char.ofNat 10
  · subst h5
    rw [show jescape (Char.ofNat 10) = [chBslash, 'n'] from by decide, List.cons_append,
      List.cons_append, List.nil_append]
    exact strBody_esc2 acc 'n' (Char.ofNat 10) rest (by decide) (by decide)
  by_cases h6 : c = Char.ofNat 12
  · subst h6
    rw [show jescape (Char.ofNat 12) = [chBslash, 'f'] from by decide, List.cons_append,
      List.cons_append, List.nil_append]
    exact strBody_esc2 acc 'f' (Char.ofNat 12) rest (by decide) (by decide)
  by_cases h7 : c = Char.ofNat 13
  · subst h7
    rw [show jescape (Char.ofNat 13) = [chBslash, 'r'] from by decide, List.cons_append,
      List.cons_append, List.nil_append]
    exact strBody_esc2 acc 'r' (Char.ofNat 13) rest (by decide) (by decide)
  by_cases h8 : c.toNat < 32
  · have harg : jescape c ++ rest
        = chBslash :: 'u' :: '0' :: '0' ::
            hexDigitChar (c.toNat / 16) :: hexDigitChar (c.toNat % 16) :: rest := by
      simp [jescape, h1, h2, h3, h4, h5, h6, h7, h8]
    rw [harg]
    have hhi : hexNibble (hexDigitChar (c.toNat / 16)) = some (c.toNat / 16) :=
      hexNibble_hexDigitChar _ (by omega)
    have hlo : hexNibble (hexDigitChar (c.toNat % 16)) = some (c.toNat % 16) :=
      hexNibble_hexDigitChar _ (by omega)
    have hbq : ¬ chBslash = chQuote := by decide
    have h00 : hexNibble '0' = some 0 := by decide
    rw [strBody.eq_def]
    simp only [if_neg hbq, if_pos rfl, if_true, hhi, hlo, h00]
    have harith : (((0 * 16 + 0) * 16 + c.toNat / 16) * 16 + c.toNat % 16) = c.toNat := by
      omega
    rw [harith, Char.ofNat_toNat]
  · have harg : jescape c ++ rest = c :: rest := by
      simp [jescape, h1, h2, h3, h4, h5, h6, h7, h8]
    rw [harg, strBody.eq_def]
    simp [h1, h2]

theorem strBody_escBody (l : List Char) : ∀ acc rest : List Char,
    strBody acc (l.flatMap jescape ++ chQuote :: rest)
      = some (⟨acc.reverse ++ l⟩, rest) := by
  induction l with
  | nil =>
      intro acc rest
      rw [List.flatMap_nil, List.nil_append, strBody.eq_def]
      simp
  | cons c t ih =>
      intro acc rest
      rw [List.flatMap_cons, List.append_assoc, strBody_jescape, ih]
      simp

theorem strBody_strLit (s : String) (rest : List Char) :
    strBody [] (s.data.flatMap jescape ++ chQuote :: rest) = some (s, rest) := by
  rw [strBody_escBody]
  rfl

theorem wsSkip_cons {c : Char} (cs : List Char)
    (h : ¬(c = Char.ofNat 32 ∨ c = Char.ofNat 9 ∨ c = Char.ofNat 10 ∨ c = Char.ofNat 13)) :
    wsSkip (c :: cs) = c :: cs := by
  rw [wsSkip.eq_def]
  simp [h]

theorem digit_head_facts {c : Char} (h : isDigitCh c = true) :
    ¬(c = Char.ofNat 32 ∨ c = Char.ofNat 9 ∨ c = Char.ofNat 10 ∨ c = Char.ofNat 13) ∧
    c ≠ 'n' ∧ c ≠ 't' ∧ c ≠ 'f' ∧ c ≠ chQuote ∧ c ≠ chLBrack ∧ c ≠ chLBrace ∧
    c ≠ ',' ∧ c ≠ chRBrack ∧ c ≠ chRBrace := by
  have hb := isDigitCh_toNat h
  have e1 : ('n').toNat = 110 := by decide
  have e2 : ('t').toNat = 116 := by decide
  have e3 : ('f').toNat = 102 := by decide
  have e4 : chQuote.toNat = 34 := by decide
  have e5 : chLBrack.toNat = 91 := by decide
  have e6 : chLBrace.toNat = 123 := by decide
  have e7 : (',').toNat = 44 := by decide
  have e8 : chRBrack.toNat = 93 := by decide
  have e9 : chRBrace.toNat = 125 := by decide
  refine ⟨?_, ?_, ?_, ?_, ?_, ?_, ?_, ?_, ?_, ?_⟩
  · rintro (rfl | rfl | rfl | rfl) <;> revert hb <;> decide
  · exact char_ne_of_toNat_ne (by omega)
  · exact char_ne_of_toNat_ne (by omega)
  · exact char_ne_of_toNat_ne (by omega)
  · exact char_ne_of_toNat_ne (by omega)
  · exact char_ne_of_toNat_ne (by omega)
  · exact char_ne_of_toNat_ne (by omega)
  · exact char_ne_of_toNat_ne (by omega)
  · exact char_ne_of_toNat_ne (by omega)
  · exact char_ne_of_toNat_ne (by omega)

theorem jrenderL_head (v : JVal) :
    ∃ c t, jrenderL v = c :: t ∧
      (¬(c = Char.ofNat 32 ∨ c = Char.ofNat 9 ∨ c = Char.ofNat 10 ∨ c = Char.ofNat 13)) ∧
      c ≠ ',' ∧ c ≠ chRBrack ∧ c ≠ chRBrace := by
  cases v with
  | null =>
      exact ⟨'n', _, rfl, by decide, by decide, by decide, by decide⟩
  | bool b =>
      cases b with
      | true => exact ⟨'t', _, rfl, by decide, by decide, by decide, by decide⟩
      | false => exact ⟨'f', _, rfl, by decide, by decide, by decide, by decide⟩
  | str s =>
      exact ⟨chQuote, _, rfl, by decide, by decide, by decide, by decide⟩
  | arr items =>
      exact ⟨chLBrack, _, rfl, by decide, by decide, by decide, by decide⟩
  | obj fs =>
      exact ⟨chLBrace, _, rfl, by decide, by decide, by decide, by decide⟩
  | num i =>
      by_cases hneg : i < 0
      · refine ⟨chMinus, natChars i.natAbs, ?_, by decide, by decide, by decide, by decide⟩
        simp [jrenderL, intChars, hneg]
      · obtain ⟨d0, ds0, hnc⟩ : ∃ d0 ds0, natChars i.natAbs = d0 :: ds0 := by
          cases h : natChars i.natAbs with
          | nil => exact absurd h (natChars_ne_nil _)
          | cons a b => exact ⟨a, b, rfl⟩
        have hd0 : isDigitCh d0 = true := natChars_all_digits _ d0 (by rw [hnc]; simp)
        obtain ⟨hws, _, _, _, _, _, _, hcm, hrk, hrc⟩ := digit_head_facts hd0
        refine ⟨d0, ds0, ?_, hws, hcm, hrk, hrc⟩
        simp [jrenderL, intChars, hneg, hnc]

theorem wsSkip_jrenderL (v : JVal) (x : List Char) :
    wsSkip (jrenderL v ++ x) = jrenderL v ++ x := by
  obtain ⟨c, t, hv, hws, _, _, _⟩ := jrenderL_head v
  rw [hv, List.cons_append, wsSkip_cons _ hws]

theorem renderItems_cons (x : JVal) (xs : List JVal) :
    renderItems (x :: xs) = jrenderL x ++ renderItemsTail xs := rfl

theorem renderItemsTail_cons (x : JVal) (xs : List JVal) :
    renderItemsTail (x :: xs) = ',' :: renderItems (x :: xs) := rfl

theorem renderFields_cons (k : String) (x : JVal) (ms : List (String × JVal)) :
    renderFields ((k, x) :: ms) = strLit k ++ ':' :: (jrenderL x ++ renderFieldsTail ms) := rfl

theorem renderFieldsTail_cons (k : String) (x : JVal) (ms : List (String × JVal)) :
    renderFieldsTail ((k, x) :: ms) = ',' :: renderFields ((k, x) :: ms) := rfl

theorem jparseV_succ_quote (f : Nat) (cs : List Char) :
    jparseV (f + 1) (chQuote :: cs)
      = (match strBody [] cs with
         | some (s, r) => some (JVal.str s, r)
         | none => none) := rfl

theorem jparseV_succ_lbrack (f : Nat) (cs : List Char) :
    jparseV (f + 1) (chLBrack :: cs)
      = (match wsSkip cs with
         | c2 :: rest2 =>
             if c2 = chRBrack then some (JVal.arr [], rest2)
             else
               match jparseItems f (c2 :: rest2) with
               | some (vs, r) => some (JVal.arr vs, r)
               | none => none
         | [] => none) := rfl

theorem jparseV_succ_lbrace (f : Nat) (cs : List Char) :
    jparseV (f + 1) (chLBrace :: cs)
      = (match wsSkip cs with
         | c2 :: rest2 =>
             if c2 = chRBrace then some (JVal.obj [], rest2)
             else
               match jparseFields f (c2 :: rest2) with
               | some (fs, r) => some (JVal.obj fs, r)
               | none => none
         | [] => none) := rfl

theorem jparseV_succ_minus (f : Nat) (cs : List Char) :
    jparseV (f + 1) (chMinus :: cs)
      = (match parseIntTok (chMinus :: cs) with
         | some (n, r) => some (JVal.num n, r)
         | none => none) := rfl

theorem jparseV_succ (f : Nat) (cs : List Char) :
    jparseV (f + 1) cs
      = (match wsSkip cs with
         | c :: rest =>
             if c = 'n' then
               match stripSeq ['u', 'l', 'l'] rest with
               | some r => some (JVal.null, r)
               | none => none
             else if c = 't' then
               match stripSeq ['r', 'u', 'e'] rest with
               | some r => some (JVal.bool true, r)
               | none => none
             else if c = 'f' then
               match stripSeq ['a', 'l', 's', 'e'] rest with
               | some r => some (JVal.bool false, r)
               | none => none
             else if c = chQuote then
               match strBody [] rest with
               | some (s, r) => some (JVal.str s, r)
               | none => none
             else if c = chLBrack then
               match wsSkip rest with
               | c2 :: rest2 =>
                   if c2 = chRBrack then some (JVal.arr [], rest2)
                   else
                     match jparseItems f (c2 :: rest2) with
                     | some (vs, r) => some (JVal.arr vs, r)
                     | none => none
               | [] => none
             else if c = chLBrace then
               match wsSkip rest with
               | c2 :: rest2 =>
                   if c2 = chRBrace then some (JVal.obj [], rest2)
                   else
                     match jparseFields f (c2 :: rest2) with
                     | some (fs, r) => some (JVal.obj fs, r)
                     | none => none
               | [] => none
             else if c = chMinus ∨ isDigitCh c then
               match parseIntTok (c :: rest) with
               | some (n, r) => some (JVal.num n, r)
               | none => none
             else none
         | [] => none) := rfl

theorem jparseV_succ_digit (f : Nat) {c : Char} (cs : List Char) (h : isDigitCh c = true) :
    jparseV (f + 1) (c :: cs)
      = (match parseIntTok (c :: cs) with
         | some (n, r) => some (JVal.num n, r)
         | none => none) := by
  obtain ⟨hws, hn, ht, hf, hq, hlk, hlc, _, _, _⟩ := digit_head_facts h
  rw [jparseV_succ, wsSkip_cons _ hws]
  simp only [if_neg hn, if_neg ht, if_neg hf, if_neg hq, if_neg hlk, if_neg hlc,
    if_pos (Or.inr h)]

theorem jparseItems_succ (f : Nat) (cs : List Char) :
    jparseItems (f + 1) cs
      = (match jparseV f cs with
         | some (v, r) =>
             match wsSkip r with
             | c :: rest =>
                 if c = ',' then
                   match jparseItems f rest with
                   | some (vs, r2) => some (v :: vs, r2)
                   | none => none
                 else if c = chRBrack then some ([v], rest)
                 else none
             | [] => none
         | none => none) := rfl

theorem jparseFields_succ_quote (f : Nat) (cs : List Char) :
    jparseFields (f + 1) (chQuote :: cs)
      = (match strBody [] cs with
         | some (k, r1) =>
             match wsSkip r1 with
             | c2 :: r2 =>
                 if c2 = ':' then
                   match jparseV f r2 with
                   | some (v, r3) =>
                       match wsSkip r3 with
                       | c3 :: r4 =>
                           if c3 = ',' then
                             match jparseFields f r4 with
                             | some (fs, r5) => some ((k, v) :: fs, r5)
                             | none => none
                           else if c3 = chRBrace then some ([(k, v)], r4)
                           else none
                       | [] => none
                   | none => none
                 else none
             | [] => none
         | none => none) := rfl

theorem numDelim_comma (t : List Char) : numDelim (',' :: t) = true := rfl

theorem numDelim_rbrack (t : List Char) : numDelim (chRBrack :: t) = true := rfl

theorem numDelim_rbrace (t : List Char) : numDelim (chRBrace :: t) = true := rfl

mutual

theorem rtV : ∀ (v : JVal) (f : Nat) (rest : List Char),
    (jrenderL v).length < f → numDelim rest = true →
    jparseV f (jrenderL v ++ rest) = some (v, rest)
  | .null, f, rest, hf, _ => by
      cases f with
      | zero => exact absurd hf (Nat.not_lt_zero _)
      | succ f' => rfl
  | .bool true, f, rest, hf, _ => by
      cases f with
      | zero => exact absurd hf (Nat.not_lt_zero _)
      | succ f' => rfl
  | .bool false, f, rest, hf, _ => by
      cases f with
      | zero => exact absurd hf (Nat.not_lt_zero _)
      | succ f' => rfl
  | .num i, f, rest, hf, hr => by
      cases f with
      | zero => exact absurd hf (Nat.not_lt_zero _)
      | succ f' =>
          by_cases hneg : i < 0
          · have harg : jrenderL (.num i) ++ rest = chMinus :: (natChars i.natAbs ++ rest) := by
              simp [jrenderL, intChars, hneg]
            have hback : chMinus :: (natChars i.natAbs ++ rest) = intChars i ++ rest := by
              simp [intChars, hneg]
            rw [harg, jparseV_succ_minus, hback, parseIntTok_intChars i rest hr]
          · obtain ⟨d0, ds0, hnc⟩ : ∃ d0 ds0, natChars i.natAbs = d0 :: ds0 := by
              cases h : natChars i.natAbs with
              | nil => exact absurd h (natChars_ne_nil _)
              | cons a b => exact ⟨a, b, rfl⟩
            have hd0 : isDigitCh d0 = true := natChars_all_digits _ d0 (by rw [hnc]; simp)
            have harg : jrenderL (.num i) ++ rest = d0 :: (ds0 ++ rest) := by
              simp [jrenderL, intChars, hneg, hnc]
            have hback : d0 :: (ds0 ++ rest) = intChars i ++ rest := by
              simp [intChars, hneg, hnc]
            rw [harg, jparseV_succ_digit f' _ hd0, hback, parseIntTok_intChars i rest hr]
  | .str s, f, rest, hf, _ => by
      cases f with
      | zero => exact absurd hf (Nat.not_lt_zero _)
      | succ f' =>
          have harg : jrenderL (.str s) ++ rest
              = chQuote :: (s.data.flatMap jescape ++ chQuote :: rest) := by
            simp [jrenderL, strLit]
          rw [harg, jparseV_succ_quote, strBody_strLit]
  | .arr [], f, rest, hf, _ => by
      cases f with
      | zero => exact absurd hf (Nat.not_lt_zero _)
      | succ f' => rfl
  | .arr (x :: xs), f, rest, hf, _ => by
      cases f with
      | zero => exact absurd hf (Nat.not_lt_zero _)
      | succ f' =>
          obtain ⟨c0, t0, hx, hws0, _, hrk0, _⟩ := jrenderL_head x
          have harg : jrenderL (.arr (x :: xs)) ++ rest
              = chLBrack :: (renderItems (x :: xs) ++ chRBrack :: rest) := by
            simp [jrenderL]
          have hhead : renderItems (x :: xs) ++ chRBrack :: rest
              = c0 :: (t0 ++ renderItemsTail xs ++ chRBrack :: rest) := by
            simp [renderItems_cons, hx]
          have hlen : (renderItems (x :: xs)).length + 1 < f' := by
            have h2 : (jrenderL (.arr (x :: xs))).length
                = (renderItems (x :: xs)).length + 2 := by
              simp [jrenderL]
            omega
          rw [harg, jparseV_succ_lbrack, hhead, wsSkip_cons _ hws0]
          simp only [if_neg hrk0]
          rw [← hhead, rtElems x xs f' rest hlen]
  | .obj [], f, rest, hf, _ => by
      cases f with
      | zero => exact absurd hf (Nat.not_lt_zero _)
      | succ f' => rfl
  | .obj ((k, x) :: ms), f, rest, hf, _ => by
      cases f with
      | zero => exact absurd hf (Nat.not_lt_zero _)
      | succ f' =>
          have harg : jrenderL (.obj ((k, x) :: ms)) ++ rest
              = chLBrace :: (renderFields ((k, x) :: ms) ++ chRBrace :: rest) := by
            simp [jrenderL]
          have hhead : renderFields ((k, x) :: ms) ++ chRBrace :: rest
              = chQuote :: (k.data.flatMap jescape ++ [chQuote] ++
                  (':' :: (jrenderL x ++ renderFieldsTail ms)) ++ chRBrace :: rest) := by
            simp [renderFields_cons, strLit]
          have hlen : (renderFields ((k, x) :: ms)).length + 1 < f' := by
            have h2 : (jrenderL (.obj ((k, x) :: ms))).length
                = (renderFields ((k, x) :: ms)).length + 2 := by
              simp [jrenderL]
            omega
          rw [harg, jparseV_succ_lbrace, hhead, wsSkip_cons _ (by decide)]
          simp only [if_neg (show ¬ chQuote = chRBrace from by decide)]
          rw [← hhead, rtMembers k x ms f' rest hlen]
termination_by v f rest hf hr => sizeOf v
decreasing_by all_goals simp_wf <;> omega

theorem rtElems : ∀ (x : JVal) (xs : List JVal) (f : Nat) (rest : List Char),
    (renderItems (x :: xs)).length + 1 < f →
    jparseItems f (renderItems (x :: xs) ++ chRBrack :: rest) = some (x :: xs, rest)
  | x, [], f, rest, hf => by
      cases f with
      | zero => exact absurd hf (Nat.not_lt_zero _)
      | succ f' =>
          have hassoc : renderItems [x] ++ chRBrack :: rest
              = jrenderL x ++ (renderItemsTail [] ++ chRBrack :: rest) := by
            simp [renderItems_cons]
          have hlenx : (jrenderL x).length < f' := by
            have h2 : (renderItems [x]).length
                = (jrenderL x).length + (renderItemsTail ([] : List JVal)).length := by
              simp [renderItems_cons]
            omega
          have hdelim : numDelim (renderItemsTail ([] : List JVal)
              ++ chRBrack :: rest) = true := by
            rfl
          rw [jparseItems_succ, hassoc, rtV x f' _ hlenx hdelim]
          rfl
  | x, x2 :: xs2, f, rest, hf => by
      cases f with
      | zero => exact absurd hf (Nat.not_lt_zero _)
      | succ f' =>
          have hassoc : renderItems (x :: x2 :: xs2) ++ chRBrack :: rest
              = jrenderL x ++ (renderItemsTail (x2 :: xs2) ++ chRBrack :: rest) := by
            simp [renderItems_cons]
          have hlenx : (jrenderL x).length < f' := by
            have h2 : (renderItems (x :: x2 :: xs2)).length
                = (jrenderL x).length + (renderItemsTail (x2 :: xs2)).length := by
              simp [renderItems_cons]
            omega
          have hdelim : numDelim (renderItemsTail (x2 :: xs2)
              ++ chRBrack :: rest) = true := by
            rw [renderItemsTail_cons]; rfl
          have h3 : renderItemsTail (x2 :: xs2) ++ chRBrack :: rest
              = ',' :: (renderItems (x2 :: xs2) ++ chRBrack :: rest) := by
            rw [renderItemsTail_cons]; simp
          have hlen2 : (renderItems (x2 :: xs2)).length + 1 < f' := by
            have h2 : (renderItems (x :: x2 :: xs2)).length
                = (jrenderL x).length + 1 + (renderItems (x2 :: xs2)).length := by
              rw [renderItems_cons, renderItemsTail_cons]
              simp
              omega
            omega
          have hcws : wsSkip (',' :: (renderItems (x2 :: xs2) ++ chRBrack :: rest))
              = ',' :: (renderItems (x2 :: xs2) ++ chRBrack :: rest) :=
            wsSkip_cons _ (by decide)
          rw [jparseItems_succ, hassoc, rtV x f' _ hlenx hdelim, h3]
          simp only [hcws, if_pos rfl, if_true, rtElems x2 xs2 f' rest hlen2]
termination_by x xs f rest hf => 1 + sizeOf x + sizeOf xs
decreasing_by all_goals simp_wf <;> omega

theorem rtMembers : ∀ (k : String) (x : JVal) (ms : List (String × JVal)) (f : Nat)
    (rest : List Char),
    (renderFields ((k, x) :: ms)).length + 1 < f →
    jparseFields f (renderFields ((k, x) :: ms) ++ chRBrace :: rest)
      = some ((k, x) :: ms, rest)
  | k, x, [], f, rest, hf => by
      cases f with
      | zero => exact absurd hf (Nat.not_lt_zero _)
      | succ f' =>
          have hassoc : renderFields [(k, x)] ++ chRBrace :: rest
              = chQuote :: (k.data.flatMap jescape ++ chQuote ::
                  (':' :: (jrenderL x ++ (renderFieldsTail [] ++ chRBrace :: rest)))) := by
            simp [renderFields_cons, strLit]
          have hlenx : (jrenderL x).length < f' := by
            have h2 : (renderFields [(k, x)]).length
                = (strLit k).length + 1 + (jrenderL x).length
                    + (renderFieldsTail ([] : List (String × JVal))).length := by
              rw [renderFields_cons]
              simp
              omega
            omega
          have hcol : wsSkip (':' :: (jrenderL x ++ (renderFieldsTail
              ([] : List (String × JVal)) ++ chRBrace :: rest)))
              = ':' :: (jrenderL x ++ (renderFieldsTail
                  ([] : List (String × JVal)) ++ chRBrace :: rest)) :=
            wsSkip_cons _ (by decide)
          have hdelim : numDelim (renderFieldsTail
              ([] : List (String × JVal)) ++ chRBrace :: rest) = true := by
            rfl
          rw [hassoc, jparseFields_succ_quote, strBody_strLit]
          simp only [hcol, if_pos rfl, if_true, rtV x f' _ hlenx hdelim]
          rfl
  | k, x, (k2, x2) :: ms2, f, rest, hf => by
      cases f with
      | zero => exact absurd hf (Nat.not_lt_zero _)
      | succ f' =>
          have hassoc : renderFields ((k, x) :: (k2, x2) :: ms2) ++ chRBrace :: rest
              = chQuote :: (k.data.flatMap jescape ++ chQuote ::
                  (':' :: (jrenderL x ++ (renderFieldsTail ((k2, x2) :: ms2)
                    ++ chRBrace :: rest)))) := by
            simp [renderFields_cons, strLit]
          have hlenx : (jrenderL x).length < f' := by
            have h2 : (renderFields ((k, x) :: (k2, x2) :: ms2)).length
                = (strLit k).length + 1 + (jrenderL x).length
                    + (renderFieldsTail ((k2, x2) :: ms2)).length := by
              rw [renderFields_cons]
              simp
              omega
            omega
          have hcol : wsSkip (':' :: (jrenderL x ++ (renderFieldsTail ((k2, x2) :: ms2)
              ++ chRBrace :: rest)))
              = ':' :: (jrenderL x ++ (renderFieldsTail ((k2, x2) :: ms2)
                  ++ chRBrace :: rest)) :=
            wsSkip_cons _ (by decide)
          have hdelim : numDelim (renderFieldsTail ((k2, x2) :: ms2)
              ++ chRBrace :: rest) = true := by
            rw [renderFieldsTail_cons]; rfl
          have h3 : renderFieldsTail ((k2, x2) :: ms2) ++ chRBrace :: rest
              = ',' :: (renderFields ((k2, x2) :: ms2) ++ chRBrace :: rest) := by
            rw [renderFieldsTail_cons]; simp
          have hlen2 : (renderFields ((k2, x2) :: ms2)).length + 1 < f' := by
            have h2 : (renderFields ((k, x) :: (k2, x2) :: ms2)).length
                = (strLit k).length + 1 + (jrenderL x).length + 1
                    + (renderFields ((k2, x2) :: ms2)).length := by
              rw [renderFields_cons, renderFieldsTail_cons]
              simp
              omega
            omega
          have hcws : wsSkip (',' :: (renderFields ((k2, x2) :: ms2) ++ chRBrace :: rest))
              = ',' :: (renderFields ((k2, x2) :: ms2) ++ chRBrace :: rest) :=
            wsSkip_cons _ (by decide)
          rw [hassoc, jparseFields_succ_quote, strBody_strLit]
          simp only [hcol, if_pos rfl, if_true]
          rw [rtV x f' _ hlenx hdelim]
          simp only [h3, hcws, if_pos rfl, if_true]
          rw [rtMembers k2 x2 ms2 f' rest hlen2]
termination_by k x ms f rest hf => 1 + sizeOf x + sizeOf ms
decreasing_by all_goals simp_wf <;> omega

end

/-- Parsing a rendered value recovers it: the composition through the wire
string is the identity, as the `JSON.parse` and `JSON.stringify` pair
guarantees for the values this codec exchanges. -/
theorem jparse_jrender (v : JVal) : jparse (jrender v) = some v := by
  unfold jparse jrender
  rw [show (String.mk (jrenderL v)).data = jrenderL v from rfl]
  have h := rtV v ((jrenderL v).length + 1) [] (by omega) rfl
  rw [show jrenderL v ++ [] = jrenderL v from by simp] at h
  rw [h]
  rfl

/-- The empty string is not valid JSON. -/
theorem jparse_empty : jparse "" = none := rfl

/-- Rendered values are nonempty strings. -/
theorem jrender_ne_empty (v : JVal) : jrender v ≠ "" := by
  obtain ⟨c, t, hv, _, _, _, _⟩ := jrenderL_head v
  intro h
  have : (jrender v).data = [] := by rw [h]
  rw [jrender] at this
  simp [hv] at this

/-- A string that parses is nonempty. -/
theorem jparse_some_ne_empty {s : String} {v : JVal} (h : jparse s = some v) : s ≠ "" := by
  intro he
  rw [he, jparse_empty] at h
  exact Option.noConfusion h

/-! ### The validator (src/task/2-submission.ts)

`audit` classifies a submission string as optimized, legacy-uptime,
hardware, or plain-string, and applies the format's checks.  The guards and
validators below follow the source line by line; JavaScript exceptions (the
only reachable ones are property accesses on `null` and `.trim()` on
non-strings) surface as `Except.error` and are caught where the source
catches them. -/

/-- The absolute value used by the timestamp-window checks. -/
def intAbs (i : Int) : Int := if i < 0 then -i else i

/-- The 6-hour timestamp tolerance, in milliseconds. -/
def maxTimeDiffMs : Int := 6 * 60 * 60 * 1000

/-- One 365-day year, in milliseconds. -/
def oneYearMs : Int := 365 * 24 * 60 * 60 * 1000

/-- One year in seconds: the ceiling on reported uptime. -/
def maxUptimeSeconds : Int := 31536000

/-- Strict equality of a field against a number literal (`x !== k` checks). -/
def isNumVal (v : Option JVal) (k : Int) : Bool :=
  match v with
  | some (.num n) => n == k
  | _ => false

/-! #### Date helpers (legacy format) -/

/-- Shape of `YYYY-MM-DD`. -/
def fmtYmdDash : List Char → Bool
  | [a, b, c, d, s1, e, f, s2, g, h] =>
      isDigitCh a && isDigitCh b && isDigitCh c && isDigitCh d && s1 == '-' &&
      isDigitCh e && isDigitCh f && s2 == '-' && isDigitCh g && isDigitCh h
  | _ => false

/-- Shape of `MM/DD/YYYY`. -/
def fmtMdySlash : List Char → Bool
  | [a, b, s1, c, d, s2, e, f, g, h] =>
      isDigitCh a && isDigitCh b && s1 == '/' && isDigitCh c && isDigitCh d &&
      s2 == '/' && isDigitCh e && isDigitCh f && isDigitCh g && isDigitCh h
  | _ => false

/-- Shape of `MM/DD/YY`. -/
def fmtMdyShort : List Char → Bool
  | [a, b, s1, c, d, s2, e, f] =>
      isDigitCh a && isDigitCh b && s1 == '/' && isDigitCh c && isDigitCh d &&
      s2 == '/' && isDigitCh e && isDigitCh f
  | _ => false

/-- Shape of `DD-MM-YYYY`. -/
def fmtDmyDash : List Char → Bool
  | [a, b, s1, c, d, s2, e, f, g, h] =>
      isDigitCh a && isDigitCh b && s1 == '-' && isDigitCh c && isDigitCh d &&
      s2 == '-' && isDigitCh e && isDigitCh f && isDigitCh g && isDigitCh h
  | _ => false

/-- Shape of `DD.MM.YYYY`. -/
def fmtDmyDot : List Char → Bool
  | [a, b, s1, c, d, s2, e, f, g, h] =>
      isDigitCh a && isDigitCh b && s1 == '.' && isDigitCh c && isDigitCh d &&
      s2 == '.' && isDigitCh e && isDigitCh f && isDigitCh g && isDigitCh h
  | _ => false

/-- Shape of `YYYY/MM/DD`. -/
def fmtYmdSlash : List Char → Bool
  | [a, b, c, d, s1, e, f, s2, g, h] =>
      isDigitCh a && isDigitCh b && isDigitCh c && isDigitCh d && s1 == '/' &&
      isDigitCh e && isDigitCh f && s2 == '/' && isDigitCh g && isDigitCh h
  | _ => false

/-- The multi-format date test of the legacy validator. -/
def isValidDateFormat (dateStr : String) : Bool :=
  fmtYmdDash dateStr.data || fmtMdySlash dateStr.data || fmtMdyShort dateStr.data ||
  fmtDmyDash dateStr.data || fmtDmyDot dateStr.data || fmtYmdSlash dateStr.data

/-- Numeric value of two digit characters. -/
def dval2 (a b : Char) : Int :=
  ((a.toNat - 48) * 10 + (b.toNat - 48) : Nat)

/-- Numeric value of four digit characters. -/
def dval4 (a b c d : Char) : Int :=
  ((((a.toNat - 48) * 10 + (b.toNat - 48)) * 10 + (c.toNat - 48)) * 10 + (d.toNat - 48) : Nat)

/-- Days from the Unix epoch to the civil date `(y, m, d)` with `m` in 1..12;
`d` may run over and rolls into later months (the standard civil-calendar
algorithm, floor divisions throughout). -/
def daysFromCivil (y m d : Int) : Int :=
  let y2 := if m ≤ 2 then y - 1 else y
  let era := y2.fdiv 400
  let yoe := y2 - era * 400
  let mp := if m > 2 then m - 3 else m + 9
  let doy := (153 * mp + 2).fdiv 5 + d - 1
  let doe := yoe * 365 + yoe.fdiv 4 - yoe.fdiv 100 + doy
  era * 146097 + doe - 719468

/-- Whether `(y, m, d)` is a real calendar date. -/
def validCivil (y m d : Int) : Bool :=
  let leap := (y % 4 == 0 && y % 100 != 0) || y % 400 == 0
  let dim : Int :=
    if m = 2 then (if leap then 29 else 28)
    else if m = 4 ∨ m = 6 ∨ m = 9 ∨ m = 11 then 30
    else 31
  1 ≤ m && m ≤ 12 && 1 ≤ d && d ≤ dim

/-- JavaScript `new Date(y, mIndex, d)` at UTC midnight: two-digit years map
to the 1900s, month overflow rolls over.  The model pins the host time zone
to UTC. -/
def jsDateYMD (y m d : Int) : Int :=
  let yy := if 0 ≤ y ∧ y ≤ 99 then y + 1900 else y
  let months := yy * 12 + m
  let y2 := months.fdiv 12
  let m2 := months - y2 * 12
  daysFromCivil y2 (m2 + 1) d * 86400000

/-- `parseFlexibleDate`: epoch milliseconds of the date string under the
recognized formats; `none` models both an unmatched format and an ISO string
that `new Date` rejects (an `Invalid Date`). -/
def parseFlexibleDate (dateStr : String) : Option Int :=
  let cs := dateStr.data
  if fmtYmdDash cs then
    match cs with
    | [a, b, c, d, _, e, f, _, g, h] =>
        let y := dval4 a b c d
        let mo := dval2 e f
        let dy := dval2 g h
        if validCivil y mo dy then some (daysFromCivil y mo dy * 86400000) else none
    | _ => none
  else if fmtMdySlash cs then
    match cs with
    | [a, b, _, c, d, _, e, f, g, h] =>
        some (jsDateYMD (dval4 e f g h) (dval2 a b - 1) (dval2 c d))
    | _ => none
  else if fmtMdyShort cs then
    match cs with
    | [a, b, _, c, d, _, e, f] =>
        let yy := dval2 e f
        let full := yy + (if yy > 50 then 1900 else 2000)
        some (jsDateYMD full (dval2 a b - 1) (dval2 c d))
    | _ => none
  else if fmtDmyDash cs then
    match cs with
    | [a, b, _, c, d, _, e, f, g, h] =>
        some (jsDateYMD (dval4 e f g h) (dval2 c d - 1) (dval2 a b))
    | _ => none
  else if fmtDmyDot cs then
    match cs with
    | [a, b, _, c, d, _, e, f, g, h] =>
        some (jsDateYMD (dval4 e f g h) (dval2 c d - 1) (dval2 a b))
    | _ => none
  else if fmtYmdSlash cs then
    match cs with
    | [a, b, c, d, _, e, f, _, g, h] =>
        some (jsDateYMD (dval4 a b c d) (dval2 e f - 1) (dval2 g h))
    | _ => none
  else none

/-- `isDateConsistentWithTimestamp`: the parsed date must land within two
days of the timestamp; unparsable dates are inconsistent. -/
def isDateConsistentWithTimestamp (dateStr : String) (timestamp : Int) : Bool :=
  match parseFlexibleDate dateStr with
  | none => false
  | some pd => intAbs (timestamp - pd) ≤ 2 * 24 * 60 * 60 * 1000

/-! #### Format guards and typed views -/

/-- The static block of the optimized format.  Fields the guard
type-checks are typed; the rest stay raw `Option JVal`, since the
validator reads them through JavaScript coercions. -/
structure OptStatic where
  w : String
  l : String
  c : String
  cp : Int
  r : Int
  rt : String
  st : Int
  o : String
  a : String
  sd : Option JVal
  g : Option JVal
  gv : Option JVal
  v : Option JVal
  n : Option JVal
  h : Option JVal

/-- The typed view of an optimized submission that `isOptimizedSubmission`
guarantees. -/
structure OptData where
  s : Option OptStatic
  u : Int
  sc : Bool
  t : Int
  r : Int
  w : Option JVal

/-- `isOptimizedSubmission`, fused with the extraction of the typed view:
`.ok none` is the guard returning false, `.ok (some _)` the guard returning
true, and `.error` the one genuine throw in the guard — `data.s.w` when
`data.s` is `null` (whose `typeof` is `'object'`). -/
def decodeOptDataE (d : JVal) : Except Unit (Option OptData) :=
  if !(d.isObjectType && !d.isNull) then .ok none
  else
    match d.getF2 "d" "u", d.getF2 "m" "sc", d.getF2 "m" "t", d.getF2 "m" "r" with
    | some (.num u), some (.bool sc), some (.num t), some (.num r) =>
        match d.getF "s" with
        | none => .ok (some ⟨none, u, sc, t, r, d.getF "w"⟩)
        | some .null => .error ()
        | some sv =>
            if !sv.isObjectType then .ok none
            else
              match sv.getF "w", sv.getF "l", sv.getF "c", sv.getF "cp", sv.getF "r",
                sv.getF "rt", sv.getF "st", sv.getF "o", sv.getF "a" with
              | some (.str w), some (.str l), some (.str c), some (.num cp),
                some (.num r2), some (.str rt), some (.num st), some (.str o),
                some (.str a) =>
                  .ok (some ⟨some ⟨w, l, c, cp, r2, rt, st, o, a,
                    sv.getF "sd", sv.getF "g", sv.getF "gv", sv.getF "v",
                    sv.getF "n", sv.getF "h"⟩, u, sc, t, r, d.getF "w"⟩)
              | _, _, _, _, _, _, _, _, _ => .ok none
    | _, _, _, _ => .ok none

/-- `isUptimeSubmission`, fused with its typed view: all four fields must be
present with the right types, and no hardware field may be truthy. -/
def decodeUptimeData (v : JVal) : Option (Int × Int × Int × String) :=
  match v.getF "uptime", v.getF "monthlyUptime", v.getF "timestamp", v.getF "date" with
  | some (.num u), some (.num mu), some (.num t), some (.str d) =>
      if truthyOpt (v.getF "cpu") || truthyOpt (v.getF "memory") ||
          truthyOpt (v.getF "storage") || truthyOpt (v.getF "network") then none
      else some (u, mu, t, d)
  | _, _, _, _ => none

/-- `isHardwareSubmission`: some truthy hardware field, a numeric timestamp
and a string date. -/
def isHardwareSubmission (d : JVal) : Bool :=
  d.isObjectType && !d.isNull &&
  (truthyOpt (d.getF "cpu") || truthyOpt (d.getF "memory") ||
    truthyOpt (d.getF "storage") || truthyOpt (d.getF "network")) &&
  isNumOpt (d.getF "timestamp") && isStrOpt (d.getF "date")

/-! #### The validators -/

/-- The OS labels the static-block check accepts as substrings. -/
def validOSTypes : List String := ["Linux", "macOS", "Windows"]

/-- The architecture labels the static-block check accepts exactly. -/
def validArchs : List String := ["x64", "arm64", "ia32", "arm", "s390x", "ppc64"]

/-- The static-block field checks of `validateOptimizedSubmission`, in
source order.  `.error` is the `data.s.h.trim()` call on a truthy
non-string hostname. -/
def staticChecksE (sb : OptStatic) : Except Unit Bool :=
  if sb.w = "" ∨ sb.w = "unknown" then .ok false
  else if sb.l = "" ∨ sb.l = "unknown" then .ok false
  else if sb.c = "" ∨ jsTrim sb.c = "" ∨ sb.c.length > 50 then .ok false
  else if sb.cp < 1 ∨ sb.cp > 256 then .ok false
  else if sb.r < 1 ∨ sb.r > 2048 then .ok false
  else if sb.rt = "" ∨ jsTrim sb.rt = "" then .ok false
  else if sb.st < 1 ∨ sb.st > 100000 then .ok false
  else if jsLtNum sb.sd 1 || jsGtNum sb.sd 20 then .ok false
  else if !(isNumVal sb.g 0 || isNumVal sb.g 1) then .ok false
  else if !(validOSTypes.any (fun os => strIncludes sb.o os)) then .ok false
  else if !(isNumVal sb.v 0 || isNumVal sb.v 1) then .ok false
  else if !(validArchs.contains sb.a) then .ok false
  else if !truthyOpt sb.h then .ok false
  else
    match sb.h with
    | some (.str hs) =>
        if jsTrim hs = "" ∨ hs.length > 30 then .ok false else .ok true
    | _ => .error ()

/-- The trailing wallet check: only applied to truthy wallets; a wallet
without a `.length` (a number, say) compares as `NaN` and passes. -/
def walletCheck (w : Option JVal) : Bool :=
  if truthyOpt w then
    match jsLengthOf w with
    | some len => !(len < 32 || len > 44)
    | none => true
  else true

/-- `validateOptimizedSubmission`, in source order: uptime bounds; the
6-hour window; the one-year sanity bounds; the round bound; the
flag/static-block agreement; the static checks; the wallet check. -/
def validateOptimizedSubmissionE (od : OptData) (now : Int) : Except Unit Bool :=
  if od.u ≤ 0 ∨ od.u > maxUptimeSeconds then .ok false
  else if intAbs (now - od.t) > maxTimeDiffMs then .ok false
  else if od.t > now + oneYearMs then .ok false
  else if od.t < now - oneYearMs then .ok false
  else if od.r < 0 ∨ od.r > 1000000 then .ok false
  else if od.sc && od.s.isNone then .ok false
  else if !od.sc && !od.s.isNone then .ok false
  else
    match od.s with
    | some sb =>
        match staticChecksE sb with
        | .error e => .error e
        | .ok false => .ok false
        | .ok true => .ok (walletCheck od.w)
    | none => .ok (walletCheck od.w)

/-- `validateUptimeSubmission`, in source order: uptime bounds; monthly
percentage; the 6-hour window; date format; date/timestamp consistency; the
one-year sanity bounds. -/
def validateUptimeSubmission (u mu t : Int) (date : String) (now : Int) : Bool :=
  if u ≤ 0 ∨ u > maxUptimeSeconds then false
  else if mu < 0 ∨ mu > 100 then false
  else if intAbs (now - t) > maxTimeDiffMs then false
  else if !isValidDateFormat date then false
  else if !isDateConsistentWithTimestamp date t then false
  else if t > now + oneYearMs then false
  else if t < now - oneYearMs then false
  else true

/-- `validateHardwareSubmission`: type checks on timestamp and date, then
only the 6-hour window. -/
def validateHardwareSubmission (d : JVal) (now : Int) : Bool :=
  match d.getF "timestamp", d.getF "date" with
  | some (.num t), some (.str _) => !(intAbs (now - t) > maxTimeDiffMs)
  | _, _ => false

/-- `validateStringSubmission`: the `Hello, World!` sentinel passes; empty,
oversized and unknown strings fail. -/
def validateStringSubmission (s : String) : Bool :=
  if s = "Hello, World!" then true
  else if s = "" ∨ jsTrim s = "" then false
  else if s.length > 512 then false
  else false

/-- The format-classification ladder inside the parse branch of `audit`:
optimized first, then legacy uptime, then hardware, else reject. -/
def auditFormatsE (v : JVal) (now : Int) : Except Unit Bool :=
  match decodeOptDataE v with
  | .error e => .error e
  | .ok (some od) => validateOptimizedSubmissionE od now
  | .ok none =>
      match decodeUptimeData v with
      | some (u, mu, t, date) => .ok (validateUptimeSubmission u mu t date now)
      | none =>
          if isHardwareSubmission v then .ok (validateHardwareSubmission v now)
          else .ok false

/-- The body of `audit` up to but not including the outermost catch: the
input-parameter guards, the `JSON.parse` attempt, the per-format validation
under the inner catch (whose handler falls back to string validation), and
the string fallback for unparsable input.  `none` models a `null` or
`undefined` argument. -/
def auditBodyE (sub : Option String) (round : Int) (key : Option String)
    (now : Int) : Except Unit Bool :=
  match sub with
  | none => .ok false
  | some s =>
      if s = "" then .ok false
      else if round < 0 then .ok false
      else
        match key with
        | none => .ok false
        | some k =>
            if k = "" then .ok false
            else
              match jparse s with
              | some v =>
                  match auditFormatsE v now with
                  | .ok b => .ok b
                  | .error _ => .ok (validateStringSubmission s)
              | none => .ok (validateStringSubmission s)

/-- `audit`: the body wrapped in the outermost catch, which converts any
escaped exception to `false` so the caller always receives a boolean. -/
def audit (sub : Option String) (round : Int) (key : Option String)
    (now : Int) : Bool :=
  match auditBodyE sub round key now with
  | .ok b => b
  | .error _ => false

/-! ### The encoder (the `submission` module with the optimized format)

`submission` prefers the structured `taskSubmissionData` store, builds the
compact payload with `createOptimizedSubmission`, and falls back to the
legacy `uptimeData` store when the payload is oversized or the stored data
malformed.  Storage contents arrive as parameters; `Date.now()` and the
ISO date are the `now`/`today` parameters. -/

/-- The `cpu` group of `TaskSubmissionData.static` (the fields the encoder
reads). -/
structure TaskCpu where
  model : String
  coresPhysical : Int

/-- The `ram` group. -/
structure TaskRam where
  totalMB : Int
  ramType : Option String

/-- The `storage` group. -/
structure TaskStorage where
  totalGB : Int
  deviceCount : Int

/-- The `gpu` group. -/
structure TaskGpu where
  present : Bool
  vendor : Option String

/-- The `os` group. -/
structure TaskOs where
  platform : String
  isVirtual : Bool

/-- The `network` group. -/
structure TaskNetwork where
  nicModel : Option String

/-- The `system` group. -/
structure TaskSystem where
  arch : String
  hostname : String

/-- The static block of `TaskSubmissionData` (interface fields the encoder
never reads, such as `coresLogical` and `distro`, are omitted from the
model). -/
structure TaskStatic where
  wanIp : String
  lanIp : String
  cpu : TaskCpu
  ram : TaskRam
  storage : TaskStorage
  gpu : TaskGpu
  os : TaskOs
  network : TaskNetwork
  system : TaskSystem

/-- The `metadata` block of `TaskSubmissionData`. -/
structure TaskMetadata where
  staticChanged : Bool
  nodeWallet : String
  timestamp : Int
  roundNumber : Int

/-- The `dynamic` block of `TaskSubmissionData`. -/
structure TaskDynamic where
  uptime : Int

/-- The structured store the task step writes and the encoder reads. -/
structure TaskSubmissionData where
  static : Option TaskStatic
  dynamic : TaskDynamic
  metadata : TaskMetadata

/-- JavaScript `v?.substring(0, k) || dflt`: absent values and empty
truncations fall back to the default. -/
def jsOrStr (v : Option String) (k : Nat) (dflt : String) : String :=
  match v with
  | some s => if jsSubstring s k = "" then dflt else jsSubstring s k
  | none => dflt

/-- `Math.round(n / 1024)`: the division is exact in floating point for a
power-of-two divisor, and `Math.round` is floor of the value plus one half. -/
def jsRoundDiv1024 (n : Int) : Int :=
  (2 * n + 1024).fdiv 2048

/-- `createOptimizedSubmission`: the compact payload, with the static block
included only when present and flagged changed, and the wallet appended when
nonempty and not the `unknown` sentinel.  Keys appear in insertion order. -/
def createOptimizedSubmission (data : TaskSubmissionData) : JVal :=
  let base : List (String × JVal) :=
    [("d", .obj [("u", .num data.dynamic.uptime)]),
     ("m", .obj [("sc", .bool data.metadata.staticChanged),
                 ("t", .num data.metadata.timestamp),
                 ("r", .num data.metadata.roundNumber)])]
  let withS : List (String × JVal) :=
    match data.static with
    | some st =>
        if data.metadata.staticChanged then
          base ++ [("s", .obj [
            ("w", .str (jsSubstring st.wanIp 15)),
            ("l", .str (jsSubstring st.lanIp 15)),
            ("c", .str (jsSubstring st.cpu.model 25)),
            ("cp", .num st.cpu.coresPhysical),
            ("r", .num (jsRoundDiv1024 st.ram.totalMB)),
            ("rt", .str (jsOrStr st.ram.ramType 10 "Unknown")),
            ("st", .num st.storage.totalGB),
            ("sd", .num st.storage.deviceCount),
            ("g", .num (if st.gpu.present then 1 else 0)),
            ("gv", .str (jsOrStr st.gpu.vendor 10 "")),
            ("o", .str (jsSubstring st.os.platform 10)),
            ("v", .num (if st.os.isVirtual then 1 else 0)),
            ("n", .str (jsOrStr st.network.nicModel 15 "")),
            ("a", .str st.system.arch),
            ("h", .str (jsSubstring st.system.hostname 20))])]
        else base
    | none => base
  let withW : List (String × JVal) :=
    if data.metadata.nodeWallet ≠ "" ∧ data.metadata.nodeWallet ≠ "unknown" then
      withS ++ [("w", .str (jsSubstring data.metadata.nodeWallet 44))]
    else withS
  .obj withW

/-- Reading of an optional string field of the stored task data (`null` and
absent both read as absent, as optional chaining treats them). -/
def optStrField (o : JVal) (k : String) : Option (Option String) :=
  match o.getF k with
  | none => some none
  | some .null => some none
  | some (.str s) => some (some s)
  | some _ => none

/-- Decoding of a stored `taskSubmissionData` JSON into its typed view.
The source casts without validation and lets ill-shaped data throw inside
`createOptimizedSubmission`, caught by the same handler as a parse error;
the model folds both into decode failure. -/
def decodeTaskData (v : JVal) : Option TaskSubmissionData := do
  let u ← match v.getF2 "dynamic" "uptime" with
          | some (.num u) => some u
          | _ => none
  let sc ← match v.getF2 "metadata" "staticChanged" with
           | some (.bool b) => some b
           | _ => none
  let wal ← match v.getF2 "metadata" "nodeWallet" with
            | some (.str w) => some w
            | _ => none
  let ts ← match v.getF2 "metadata" "timestamp" with
           | some (.num t) => some t
           | _ => none
  let rn ← match v.getF2 "metadata" "roundNumber" with
           | some (.num r) => some r
           | _ => none
  let st ← match v.getF "static" with
           | none => some none
           | some .null => some none
           | some sv =>
               match sv.getF "wanIp", sv.getF "lanIp", sv.getF "cpu", sv.getF "ram",
                 sv.getF "storage", sv.getF "gpu", sv.getF "os", sv.getF "network",
                 sv.getF "system" with
               | some (.str wan), some (.str lan), some cpuV, some ramV, some stoV,
                 some gpuV, some osV, some netV, some sysV =>
                   (match cpuV.getF "model", cpuV.getF "coresPhysical",
                      ramV.getF "totalMB", optStrField ramV "type",
                      stoV.getF "totalGB", stoV.getF "deviceCount",
                      gpuV.getF "present", optStrField gpuV "vendor",
                      osV.getF "platform", osV.getF "isVirtual",
                      optStrField netV "nicModel",
                      sysV.getF "arch", sysV.getF "hostname" with
                    | some (.str mdl), some (.num cp), some (.num mb), some rt,
                      some (.num gb), some (.num dc), some (.bool gp), some gv,
                      some (.str pl), some (.bool vt), some nic,
                      some (.str ar), some (.str hn) =>
                        some (some ⟨wan, lan, ⟨mdl, cp⟩, ⟨mb, rt⟩, ⟨gb, dc⟩,
                          ⟨gp, gv⟩, ⟨pl, vt⟩, ⟨nic⟩, ⟨ar, hn⟩⟩)
                    | _, _, _, _, _, _, _, _, _, _, _, _, _ => none)
               | _, _, _, _, _, _, _, _, _ => none
  some ⟨st, ⟨u⟩, ⟨sc, wal, ts, rn⟩⟩

/-- An error payload with timestamp and date, as the fallback branches
build. -/
def errorPayload (msg : String) (now : Int) (today : String) : JVal :=
  .obj [("error", .str msg), ("timestamp", .num now), ("date", .str today)]

/-- The truncation applied to an oversized legacy payload: keep
`uptime || 0` and stamp a fresh timestamp and date.  The uptime field is
carried over unbounded. -/
def submissionLegacyTrunc (p : JVal) (now : Int) (today : String) : JVal :=
  .obj [("uptime", match p.getF "uptime" with
                   | some uv => if uv.truthy then uv else .num 0
                   | none => .num 0),
        ("timestamp", .num now),
        ("date", .str today)]

/-- The tail of the legacy path: serialize the stored uptime data, and if
the result exceeds 512 bytes return the truncated record instead. -/
def legacyFinish (p : JVal) (now : Int) (today : String) : String :=
  let s := jrender p
  if s.length > 512 then jrender (submissionLegacyTrunc p now today) else s

/-- The legacy fallback of `submission`: reject falsy stores, parse string
stores, pass object stores through, and serialize within the size cap. -/
def submissionLegacy (uptimeStore : Option JVal) (now : Int) (today : String) : String :=
  match uptimeStore with
  | none => jrender (errorPayload "No data available" now today)
  | some v =>
      if !v.truthy then jrender (errorPayload "No data available" now today)
      else
        match v with
        | .str s =>
            match jparse s with
            | some p => legacyFinish p now today
            | none => jrender (errorPayload "Invalid data format" now today)
        | _ =>
            if v.isObjectType && !v.isNull then legacyFinish v now today
            else jrender (errorPayload "Invalid data structure" now today)

/-- `submission`: validate the round, try the optimized payload from the
structured store (falling back when oversized or malformed), then the
legacy uptime store. -/
def submission (round : Int) (taskStore : Option String) (uptimeStore : Option JVal)
    (now : Int) (today : String) : String :=
  if round < 0 then
    jrender (.obj [("error", .str "Invalid round number"), ("timestamp", .num now)])
  else
    match taskStore with
    | some ts =>
        if ts = "" then submissionLegacy uptimeStore now today
        else
          match jparse ts with
          | some tv =>
              match decodeTaskData tv with
              | some td =>
                  let s := jrender (createOptimizedSubmission td)
                  if s.length ≤ 512 then s else submissionLegacy uptimeStore now today
              | none => submissionLegacy uptimeStore now today
          | none => submissionLegacy uptimeStore now today
    | none => submissionLegacy uptimeStore now today

/-- Modelled from the spec: step (1) of the claimed degradation ladder —
the optimized payload with the sender-address (`w`) field dropped. -/
def ladderDropWallet (td : TaskSubmissionData) : JVal :=
  match createOptimizedSubmission td with
  | .obj fs => .obj (fs.filter (fun kv => kv.1 ≠ "w"))
  | v => v

/-! ### The change-detection cache (static-cache-manager.ts)

`checkForStaticChanges` compares a canonical hash of the fresh hardware
snapshot against the persisted one and re-saves on change.  File reads that
fail parse as no cache (`loadCachedData` catches internally); file writes
that fail throw (`saveCachedData` rethrows), caught by the check's own
handler, which fails open to `hasChanged = true`.  The hardware collector's
getters all swallow their errors, so collection is modelled total; the
persisted file and the success of the two file operations are parameters. -/

/-- The `cpu` group of `StaticHardwareData`. -/
structure HwCpu where
  model : String
  coresPhysical : Int
  coresLogical : Int
  frequencyGHz : Option Int

/-- The `ram` group. -/
structure HwRam where
  totalMB : Int
  ramType : Option String

/-- The `storage` group (device entries stay raw). -/
structure HwStorage where
  totalGB : Int
  devices : List JVal

/-- The `gpu` group. -/
structure HwGpu where
  present : Bool
  vendor : Option String
  model : Option String

/-- The `os` group. -/
structure HwOs where
  platform : String
  distro : Option String
  kernel : Option String
  isVirtual : Bool
  virtualPlatform : Option String

/-- The `network` group. -/
structure HwNetwork where
  nicModel : Option String
  speedMbps : Option Int
  mediaType : Option String

/-- The `system` group. -/
structure HwSystem where
  arch : String
  hostname : String
  swapTotalMB : Option Int
  bootUptimeSeconds : Option Int

/-- The hardware snapshot the collector returns. -/
structure StaticHardwareData where
  wanIp : String
  lanIp : String
  cpu : HwCpu
  ram : HwRam
  storage : HwStorage
  gpu : HwGpu
  os : HwOs
  network : HwNetwork
  system : HwSystem

/-- A present optional string field, or nothing. -/
def optFieldStr (k : String) (v : Option String) : List (String × JVal) :=
  match v with
  | some s => [(k, .str s)]
  | none => []

/-- A present optional numeric field, or nothing. -/
def optFieldNum (k : String) (v : Option Int) : List (String × JVal) :=
  match v with
  | some n => [(k, .num n)]
  | none => []

/-- The JSON form of the `staticFields` object `generateDataHash` builds:
the seven hardware groups, with `system` narrowed to `arch` and
`hostname`. -/
def staticFieldsJ (hw : StaticHardwareData) : JVal :=
  .obj [
    ("cpu", .obj ([("model", .str hw.cpu.model),
                   ("coresPhysical", .num hw.cpu.coresPhysical),
                   ("coresLogical", .num hw.cpu.coresLogical)]
                  ++ optFieldNum "frequencyGHz" hw.cpu.frequencyGHz)),
    ("ram", .obj ([("totalMB", .num hw.ram.totalMB)]
                  ++ optFieldStr "type" hw.ram.ramType)),
    ("storage", .obj [("totalGB", .num hw.storage.totalGB),
                      ("devices", .arr hw.storage.devices)]),
    ("gpu", .obj ([("present", .bool hw.gpu.present)]
                  ++ optFieldStr "vendor" hw.gpu.vendor
                  ++ optFieldStr "model" hw.gpu.model)),
    ("os", .obj ([("platform", .str hw.os.platform)]
                 ++ optFieldStr "distro" hw.os.distro
                 ++ optFieldStr "kernel" hw.os.kernel
                 ++ [("isVirtual", .bool hw.os.isVirtual)]
                 ++ optFieldStr "virtualPlatform" hw.os.virtualPlatform)),
    ("network", .obj (optFieldStr "nicModel" hw.network.nicModel
                      ++ optFieldNum "speedMbps" hw.network.speedMbps
                      ++ optFieldStr "mediaType" hw.network.mediaType)),
    ("system", .obj [("arch", .str hw.system.arch),
                     ("hostname", .str hw.system.hostname)])]

/-- Join rendered pieces with commas. -/
def joinComma : List (List Char) → List Char
  | [] => []
  | [x] => x
  | x :: xs => x ++ ',' :: joinComma xs

/-- `JSON.stringify(value, keyList)`: the key list acts as a property
whitelist at every object level, in list order; arrays are untouched.
Fueled on nesting depth, ample for the fixed-depth static-fields object. -/
def stringifyWLV : Nat → List String → JVal → List Char
  | 0, _, _ => []
  | fuel + 1, allow, v =>
      match v with
      | .null => "null".data
      | .bool true => "true".data
      | .bool false => "false".data
      | .num n => intChars n
      | .str s => strLit s
      | .arr items =>
          chLBrack :: (joinComma (items.map (stringifyWLV fuel allow)) ++ [chRBrack])
      | .obj fs =>
          let mems := allow.filterMap (fun k => (fieldGet fs k).map (fun w => (k, w)))
          chLBrace :: (joinComma (mems.map
            (fun kv => strLit kv.1 ++ ':' :: stringifyWLV fuel allow kv.2)) ++ [chRBrace])

/-- Wrap of a value into the signed 32-bit range, as bitwise operators
coerce in JavaScript. -/
def toInt32 (n : Int) : Int :=
  (n + 2 ^ 31) % 2 ^ 32 - 2 ^ 31

/-- One step of the rolling hash: `hash = ((hash << 5) - hash) + code`
followed by the 32-bit wrap `hash = hash & hash`. -/
def hashStep (h : Int) (c : Char) : Int :=
  toInt32 (toInt32 (h * 32) - h + c.toNat)

/-- Hexadecimal digits of a natural number, as `Number.toString(16)`. -/
def natHexChars (n : Nat) : List Char :=
  if n = 0 then ['0']
  else ((Nat.digits 16 n).map hexDigitChar).reverse

/-- `Number.toString(16)` on an integer: sign, then hex magnitude. -/
def hashHex (n : Int) : String :=
  ⟨(if n < 0 then [chMinus] else []) ++ natHexChars n.natAbs⟩

/-- `generateDataHash`: serialize the static fields under the sorted
top-level key whitelist, then fold the rolling hash over the characters. -/
def generateDataHash (hw : StaticHardwareData) : String :=
  let dataString := stringifyWLV 8
    ["cpu", "gpu", "network", "os", "ram", "storage", "system"] (staticFieldsJ hw)
  hashHex (dataString.foldl hashStep 0)

/-- `s || dflt` on a string. -/
def strOr (s dflt : String) : String :=
  if s = "" then dflt else s

/-- `v || dflt` on an optional string. -/
def optStrOr (v : Option String) (dflt : String) : String :=
  match v with
  | some s => if s = "" then dflt else s
  | none => dflt

/-- `identifyChanges`: the field-level delta messages between two
snapshots, in source order. -/
def identifyChanges (oldD newD : StaticHardwareData) : List String :=
  (if oldD.cpu.model ≠ newD.cpu.model then
    ["CPU Model: " ++ strOr oldD.cpu.model "Unknown" ++ " → " ++ strOr newD.cpu.model "Unknown"]
  else []) ++
  (if oldD.cpu.coresPhysical ≠ newD.cpu.coresPhysical then
    ["CPU Cores: " ++ toString oldD.cpu.coresPhysical ++ " → " ++ toString newD.cpu.coresPhysical]
  else []) ++
  (if oldD.ram.totalMB ≠ newD.ram.totalMB then
    ["RAM: " ++ toString (jsRoundDiv1024 oldD.ram.totalMB) ++ "GB → "
      ++ toString (jsRoundDiv1024 newD.ram.totalMB) ++ "GB"]
  else []) ++
  (if optStrOr oldD.ram.ramType "" ≠ optStrOr newD.ram.ramType "" then
    ["RAM Type: " ++ optStrOr oldD.ram.ramType "Unknown" ++ " → "
      ++ optStrOr newD.ram.ramType "Unknown"]
  else []) ++
  (if oldD.storage.totalGB ≠ newD.storage.totalGB then
    ["Storage: " ++ toString oldD.storage.totalGB ++ "GB → "
      ++ toString newD.storage.totalGB ++ "GB"]
  else []) ++
  (if oldD.storage.devices.length ≠ newD.storage.devices.length then
    ["Storage Devices: " ++ toString oldD.storage.devices.length ++ " → "
      ++ toString newD.storage.devices.length]
  else []) ++
  (if oldD.gpu.present ≠ newD.gpu.present then
    ["GPU: " ++ (if oldD.gpu.present then "Present" else "None") ++ " → "
      ++ (if newD.gpu.present then "Present" else "None")]
  else []) ++
  (if oldD.gpu.present && newD.gpu.present
      && optStrOr oldD.gpu.model "" ≠ optStrOr newD.gpu.model "" then
    ["GPU Model: " ++ optStrOr oldD.gpu.model "Unknown" ++ " → "
      ++ optStrOr newD.gpu.model "Unknown"]
  else []) ++
  (if oldD.os.platform ≠ newD.os.platform then
    ["OS Platform: " ++ strOr oldD.os.platform "Unknown" ++ " → "
      ++ strOr newD.os.platform "Unknown"]
  else []) ++
  (if optStrOr oldD.os.distro "" ≠ optStrOr newD.os.distro "" then
    ["OS Version: " ++ optStrOr oldD.os.distro "Unknown" ++ " → "
      ++ optStrOr newD.os.distro "Unknown"]
  else []) ++
  (if oldD.os.isVirtual ≠ newD.os.isVirtual then
    ["Virtualization: " ++ (if oldD.os.isVirtual then "Virtual" else "Physical") ++ " → "
      ++ (if newD.os.isVirtual then "Virtual" else "Physical")]
  else []) ++
  (if optStrOr oldD.network.nicModel "" ≠ optStrOr newD.network.nicModel "" then
    ["Network: " ++ optStrOr oldD.network.nicModel "Unknown" ++ " → "
      ++ optStrOr newD.network.nicModel "Unknown"]
  else []) ++
  (if oldD.system.arch ≠ newD.system.arch then
    ["Architecture: " ++ strOr oldD.system.arch "Unknown" ++ " → "
      ++ strOr newD.system.arch "Unknown"]
  else []) ++
  (if oldD.system.hostname ≠ newD.system.hostname then
    ["Hostname: " ++ strOr oldD.system.hostname "Unknown" ++ " → "
      ++ strOr newD.system.hostname "Unknown"]
  else [])

/-- The persisted cache entry. -/
structure CachedStaticData where
  data : StaticHardwareData
  hash : String
  timestamp : Int

/-- The result `checkForStaticChanges` returns. -/
structure StaticChangeResult where
  hasChanged : Bool
  currentData : StaticHardwareData
  previousData : Option StaticHardwareData
  reason : String

/-- `loadCachedData`: a failed read or parse is caught internally and
reported as no cache. -/
def loadCachedData (file : Option CachedStaticData) (loadOk : Bool) :
    Option CachedStaticData :=
  if loadOk then file else none

/-- `saveCachedData`: on success the entry is rebuilt wholesale from the
snapshot; a failed write is rethrown to the caller. -/
def saveCachedDataE (hw : StaticHardwareData) (now : Int) (saveOk : Bool) :
    Except Unit CachedStaticData :=
  if saveOk then .ok ⟨hw, generateDataHash hw, now⟩ else .error ()

/-- The body of `checkForStaticChanges` inside its try: hash the fresh
snapshot, load, and branch on first-run / changed / unchanged, saving in
the first two.  The second component is the cache file after the call. -/
def checkForStaticChangesE (hw : StaticHardwareData) (file : Option CachedStaticData)
    (saveOk loadOk : Bool) (now : Int) :
    Except Unit (StaticChangeResult × Option CachedStaticData) :=
  let currentHash := generateDataHash hw
  match loadCachedData file loadOk with
  | none =>
      match saveCachedDataE hw now saveOk with
      | .error e => .error e
      | .ok cd => .ok (⟨true, hw, none, "First run - no previous data"⟩, some cd)
  | some cached =>
      if currentHash ≠ cached.hash then
        match saveCachedDataE hw now saveOk with
        | .error e => .error e
        | .ok cd =>
            .ok (⟨true, hw, some cached.data,
              "Hardware changes detected: "
                ++ String.intercalate ", " (identifyChanges cached.data hw)⟩, some cd)
      else .ok (⟨false, hw, some cached.data, "No hardware changes detected"⟩, some cached)

/-- `checkForStaticChanges`: the body under its catch, which fails open to
`hasChanged = true` with the freshly collected data and leaves the file as
the failed save left it (unwritten). -/
def checkForStaticChanges (hw : StaticHardwareData) (file : Option CachedStaticData)
    (saveOk loadOk : Bool) (now : Int) :
    StaticChangeResult × Option CachedStaticData :=
  match checkForStaticChangesE hw file saveOk loadOk now with
  | .ok r => r
  | .error _ => (⟨true, hw, none, "Error checking cache - assuming changed"⟩, file)

/-! ### Shared facts about the audit flow -/

/-- With valid parameters and parsable input, `audit` is the format ladder
with the string fallback as the inner catch handler. -/
theorem audit_parse_route {s : String} {v : JVal} (round : Int) (key : String) (now : Int)
    (h : jparse s = some v) (hr : ¬ round < 0) (hk : key ≠ "") :
    audit (some s) round (some key) now
      = (match auditFormatsE v now with
         | .ok b => b
         | .error _ => validateStringSubmission s) := by
  simp only [audit, auditBodyE]
  rw [if_neg (jparse_some_ne_empty h), if_neg hr, if_neg hk, h]
  dsimp only
  cases auditFormatsE v now <;> rfl

/-- Whenever the format ladder settles on `false`, `audit` answers `false`
regardless of the other parameters. -/
theorem audit_reject {s : String} {v : JVal} (round : Int) (key : Option String) (now : Int)
    (h : jparse s = some v) (hv : auditFormatsE v now = Except.ok false) :
    audit (some s) round key now = false := by
  simp only [audit, auditBodyE]
  rw [if_neg (jparse_some_ne_empty h)]
  by_cases hr : round < 0
  · rw [if_pos hr]
  · rw [if_neg hr]
    cases key with
    | none => rfl
    | some k =>
        dsimp only
        by_cases hk : k = ""
        · rw [if_pos hk]
        · rw [if_neg hk, h]
          dsimp only
          rw [hv]

/-- Reading any property off a value forces it to be a non-null object. -/
theorem getF_some_obj {v : JVal} {k : String} {x : JVal} (h : v.getF k = some x) :
    v.isObjectType = true ∧ v.isNull = false := by
  cases v <;> simp [JVal.getF] at h ⊢ <;> simp [JVal.isObjectType, JVal.isNull]

/-- A truthy hardware field defeats the legacy-uptime guard. -/
theorem decodeUptimeData_none_of_hardware {v : JVal}
    (h : (truthyOpt (v.getF "cpu") || truthyOpt (v.getF "memory") ||
      truthyOpt (v.getF "storage") || truthyOpt (v.getF "network")) = true) :
    decodeUptimeData v = none := by
  unfold decodeUptimeData
  split
  · rw [if_pos h]
  · rfl

/-! ### Claim theorems -/

/-- C2.  Validator totality: for every submission value (including the
null-like `none`), round number, and sender value, the audit body runs to a
definite boolean with no escaped exception, and `audit` returns exactly that
boolean — the outermost catch admits no other outcome. -/
theorem claim_C2_validator_totality (sub : Option String) (round : Int)
    (key : Option String) (now : Int) :
    ∃ b : Bool, auditBodyE sub round key now = Except.ok b ∧
      audit sub round key now = b := by
  have h : ∃ b : Bool, auditBodyE sub round key now = Except.ok b := by
    unfold auditBodyE
    repeat' split
    all_goals exact ⟨_, rfl⟩
  obtain ⟨b, hb⟩ := h
  refine ⟨b, hb, ?_⟩
  unfold audit
  rw [hb]

/-- C8.  Cache idempotence: with persistence succeeding and the hardware
facts unchanged, the second of two consecutive `checkForStaticChanges` calls
reports no change, and a first call on an empty cache reports a change. -/
theorem claim_C8_cache_idempotent (hw : StaticHardwareData)
    (file : Option CachedStaticData) (now1 now2 : Int) :
    (checkForStaticChanges hw
        (checkForStaticChanges hw file true true now1).2 true true now2).1.hasChanged = false
    ∧ (file = none →
        (checkForStaticChanges hw file true true now1).1.hasChanged = true) := by
  constructor
  · cases file with
    | none =>
        simp [checkForStaticChanges, checkForStaticChangesE, loadCachedData, saveCachedDataE]
    | some cached =>
        by_cases h : generateDataHash hw = cached.hash
        · simp [checkForStaticChanges, checkForStaticChangesE, loadCachedData,
            saveCachedDataE, h]
        · simp [checkForStaticChanges, checkForStaticChangesE, loadCachedData,
            saveCachedDataE, h]
  · intro hf
    subst hf
    simp [checkForStaticChanges, checkForStaticChangesE, loadCachedData, saveCachedDataE]

/-- A concrete hardware snapshot for witnesses. -/
def hwWitness : StaticHardwareData :=
  ⟨"1.2.3.4", "192.168.0.2", ⟨"TestCPU", 4, 8, none⟩, ⟨16384, some "DDR4"⟩,
   ⟨512, []⟩, ⟨false, none, none⟩, ⟨"Linux", none, none, false, none⟩,
   ⟨none, none, none⟩, ⟨"x64", "host1", none, none⟩⟩

/-- Witness for C8 at a concrete snapshot and an empty cache. -/
theorem claim_C8_cache_idempotent_witness :
    (checkForStaticChanges hwWitness
        (checkForStaticChanges hwWitness none true true 5).2 true true 6).1.hasChanged = false
    ∧ (checkForStaticChanges hwWitness none true true 5).1.hasChanged = true :=
  ⟨(claim_C8_cache_idempotent hwWitness none 5 6).1,
   (claim_C8_cache_idempotent hwWitness none 5 6).2 rfl⟩

/-- C9.  Cache fail-open: whenever the check body raises (the failed save
is the one thrower on the path), the catch handler returns normally with
`hasChanged = true`; no exception reaches the caller. -/
theorem claim_C9_cache_fail_open (hw : StaticHardwareData)
    (file : Option CachedStaticData) (saveOk loadOk : Bool) (now : Int) (e : Unit)
    (h : checkForStaticChangesE hw file saveOk loadOk now = Except.error e) :
    (checkForStaticChanges hw file saveOk loadOk now).1.hasChanged = true := by
  unfold checkForStaticChanges
  rw [h]

/-- Witness for C9: a failing save on a first run trips the handler. -/
theorem claim_C9_cache_fail_open_witness :
    checkForStaticChangesE hwWitness none false true 0 = Except.error ()
    ∧ (checkForStaticChanges hwWitness none false true 0).1.hasChanged = true :=
  ⟨rfl, claim_C9_cache_fail_open hwWitness none false true 0 () rfl⟩

/-- A minimal optimized payload with liveness 1 that passes every check. -/
def optAccept1 : JVal :=
  .obj [("d", .obj [("u", .num 1)]),
        ("m", .obj [("sc", .bool false), ("t", .num 1760000000000), ("r", .num 5)])]

/-- C5.  Liveness bounds: an optimized or legacy submission whose liveness
value is zero, negative, or above one year of seconds is rejected, and a
minimal submission with liveness 1 and valid remaining fields is accepted. -/
theorem claim_C5_liveness_bounds :
    (∀ (s : String) (v : JVal) (od : OptData) (round : Int) (key : Option String) (now : Int),
      jparse s = some v → decodeOptDataE v = Except.ok (some od) →
      (od.u ≤ 0 ∨ od.u > maxUptimeSeconds) →
      audit (some s) round key now = false)
    ∧ (∀ (s : String) (v : JVal) (u mu t : Int) (date : String) (round : Int)
        (key : Option String) (now : Int),
      jparse s = some v → decodeOptDataE v = Except.ok none →
      decodeUptimeData v = some (u, mu, t, date) →
      (u ≤ 0 ∨ u > maxUptimeSeconds) →
      audit (some s) round key now = false)
    ∧ audit (some (jrender optAccept1)) 5 (some "sender") 1760000000000 = true := by
  refine ⟨?_, ?_, ?_⟩
  · intro s v od round key now hp hd hu
    apply audit_reject round key now hp
    unfold auditFormatsE
    rw [hd]
    dsimp only
    unfold validateOptimizedSubmissionE
    rw [if_pos hu]
  · intro s v u mu t date round key now hp hd hud hu
    apply audit_reject round key now hp
    unfold auditFormatsE
    rw [hd]
    dsimp only
    rw [hud]
    dsimp only
    unfold validateUptimeSubmission
    rw [if_pos hu]
  · rw [audit_parse_route 5 "sender" 1760000000000 (jparse_jrender optAccept1)
      (by omega) (by decide)]
    rfl

/-- An optimized payload with liveness 0, rejected. -/
def optRejectU0 : JVal :=
  .obj [("d", .obj [("u", .num 0)]),
        ("m", .obj [("sc", .bool false), ("t", .num 1760000000000), ("r", .num 5)])]

/-- Witness for C5 at a concrete zero-liveness payload. -/
theorem claim_C5_liveness_bounds_witness :
    audit (some (jrender optRejectU0)) 5 (some "sender") 1760000000000 = false :=
  claim_C5_liveness_bounds.1 _ optRejectU0 ⟨none, 0, false, 1760000000000, 5, none⟩
    5 (some "sender") 1760000000000 (jparse_jrender _) rfl (Or.inl (by decide))

/-- C7 (amended).  Flag/block consistency: the validator rejects a static
block under a false flag and a true flag without a block; the encoder only
emits a static block when the flag it writes is true. -/
theorem claim_C7_flag_block_consistency :
    (∀ (s : String) (v : JVal) (od : OptData) (sb : OptStatic) (round : Int)
        (key : Option String) (now : Int),
      jparse s = some v → decodeOptDataE v = Except.ok (some od) →
      od.s = some sb → od.sc = false →
      audit (some s) round key now = false)
    ∧ (∀ (s : String) (v : JVal) (od : OptData) (round : Int)
        (key : Option String) (now : Int),
      jparse s = some v → decodeOptDataE v = Except.ok (some od) →
      od.s = none → od.sc = true →
      audit (some s) round key now = false)
    ∧ (∀ td : TaskSubmissionData,
      ((createOptimizedSubmission td).getF "s").isSome = true →
      (createOptimizedSubmission td).getF2 "m" "sc" = some (.bool true)) := by
  refine ⟨?_, ?_, ?_⟩
  · intro s v od sb round key now hp hd hs hsc
    apply audit_reject round key now hp
    unfold auditFormatsE
    rw [hd]
    dsimp only
    unfold validateOptimizedSubmissionE
    rw [hs, hsc]
    repeat' split
    all_goals first | rfl | simp_all
  · intro s v od round key now hp hd hs hsc
    apply audit_reject round key now hp
    unfold auditFormatsE
    rw [hd]
    dsimp only
    unfold validateOptimizedSubmissionE
    rw [hs, hsc]
    repeat' split
    all_goals first | rfl | simp_all
  · intro td hsome
    rcases td with ⟨st, dyn, meta⟩
    rcases st with _ | st
    · by_cases hw : meta.nodeWallet ≠ "" ∧ meta.nodeWallet ≠ "unknown"
      · simp [createOptimizedSubmission, hw, JVal.getF, fieldGet] at hsome
      · simp [createOptimizedSubmission, hw, JVal.getF, fieldGet] at hsome
    · by_cases hsc : meta.staticChanged
      · by_cases hw : meta.nodeWallet ≠ "" ∧ meta.nodeWallet ≠ "unknown"
        · simp [createOptimizedSubmission, hsc, hw, JVal.getF, JVal.getF2, fieldGet]
        · simp [createOptimizedSubmission, hsc, hw, JVal.getF, JVal.getF2, fieldGet]
      · by_cases hw : meta.nodeWallet ≠ "" ∧ meta.nodeWallet ≠ "unknown"
        · simp [createOptimizedSubmission, hsc, hw, JVal.getF, fieldGet] at hsome
        · simp [createOptimizedSubmission, hsc, hw, JVal.getF, fieldGet] at hsome

/-- Witness for C7: a concrete payload with a static block under a false
flag is rejected. -/
def optScFalseWithS : JVal :=
  .obj [("d", .obj [("u", .num 10)]),
        ("m", .obj [("sc", .bool false), ("t", .num 1760000000000), ("r", .num 5)]),
        ("s", .obj [("w", .str "1.2.3.4"), ("l", .str "10.0.0.5"), ("c", .str "TestCPU"),
          ("cp", .num 4), ("r", .num 16), ("rt", .str "DDR4"), ("st", .num 512),
          ("sd", .num 2), ("g", .num 0), ("gv", .str ""), ("o", .str "Linux"),
          ("v", .num 0), ("n", .str ""), ("a", .str "x64"), ("h", .str "host")])]

theorem claim_C7_flag_block_consistency_witness :
    audit (some (jrender optScFalseWithS)) 5 (some "k") 1760000000000 = false :=
  claim_C7_flag_block_consistency.1 _ optScFalseWithS
    ⟨some ⟨"1.2.3.4", "10.0.0.5", "TestCPU", 4, 16, "DDR4", 512, "Linux", "x64",
      some (.num 2), some (.num 0), some (.str ""), some (.num 0), some (.str ""),
      some (.str "host")⟩, 10, false, 1760000000000, 5, none⟩
    ⟨"1.2.3.4", "10.0.0.5", "TestCPU", 4, 16, "DDR4", 512, "Linux", "x64",
      some (.num 2), some (.num 0), some (.str ""), some (.num 0), some (.str ""),
      some (.str "host")⟩
    5 (some "k") 1760000000000 (jparse_jrender _) rfl rfl rfl

/-- The stored task data the C7 counterexample encodes: the static snapshot
is null while the changed flag is set. -/
def tdFlagOnly : TaskSubmissionData :=
  ⟨none, ⟨10⟩, ⟨true, "", 1760000000000, 5⟩⟩

/-- C7 counterexample: the claim asserts every emitted payload satisfies
the flag/block agreement, but encoding a null static snapshot under a true
flag emits the flag set with no static block — and audit rejects that
payload. -/
theorem claim_C7_counterexample :
    (createOptimizedSubmission tdFlagOnly).getF2 "m" "sc" = some (.bool true)
    ∧ (createOptimizedSubmission tdFlagOnly).getF "s" = none
    ∧ audit (some (jrender (createOptimizedSubmission tdFlagOnly))) 5 (some "k")
        1760000000000 = false := by
  refine ⟨rfl, rfl, ?_⟩
  rw [audit_parse_route 5 "k" 1760000000000 (jparse_jrender _) (by omega) (by decide)]
  rfl

theorem intAbs_le {x c : Int} : intAbs x ≤ c ↔ (x ≤ c ∧ -c ≤ x) := by
  unfold intAbs
  split <;> omega

/-- A submission the optimized validator accepts at its own timestamp is
accepted at clock `now` exactly when `now` is within the 6-hour window:
every check other than the window is clock-independent, and the one-year
bounds are subsumed by the window. -/
theorem validateOpt_time_shift (od : OptData) (now : Int)
    (h : validateOptimizedSubmissionE od od.t = Except.ok true) :
    validateOptimizedSubmissionE od now
      = Except.ok (decide (intAbs (now - od.t) ≤ maxTimeDiffMs)) := by
  unfold validateOptimizedSubmissionE at h ⊢
  by_cases hu : od.u ≤ 0 ∨ od.u > maxUptimeSeconds
  · rw [if_pos hu] at h
    exact absurd h (by simp)
  rw [if_neg hu] at h ⊢
  rw [if_neg (show ¬ intAbs (od.t - od.t) > maxTimeDiffMs from by
    unfold intAbs maxTimeDiffMs; split <;> omega)] at h
  rw [if_neg (show ¬ od.t > od.t + oneYearMs from by unfold oneYearMs; omega)] at h
  rw [if_neg (show ¬ od.t < od.t - oneYearMs from by unfold oneYearMs; omega)] at h
  by_cases hr : od.r < 0 ∨ od.r > 1000000
  · rw [if_pos hr] at h
    exact absurd h (by simp)
  rw [if_neg hr] at h ⊢
  by_cases hc1 : (od.sc && od.s.isNone) = true
  · rw [if_pos hc1] at h
    exact absurd h (by simp)
  rw [if_neg hc1] at h ⊢
  by_cases hc2 : (!od.sc && !od.s.isNone) = true
  · rw [if_pos hc2] at h
    exact absurd h (by simp)
  rw [if_neg hc2] at h ⊢
  by_cases ht : intAbs (now - od.t) > maxTimeDiffMs
  · rw [if_pos ht]
    have hd : decide (intAbs (now - od.t) ≤ maxTimeDiffMs) = false := by
      simp
      omega
    rw [hd]
  · rw [if_neg ht]
    rw [not_lt] at ht
    obtain ⟨hta, htb⟩ := intAbs_le.mp ht
    rw [if_neg (show ¬ od.t > now + oneYearMs from by
      unfold maxTimeDiffMs at hta htb; unfold oneYearMs; omega)]
    rw [if_neg (show ¬ od.t < now - oneYearMs from by
      unfold maxTimeDiffMs at hta htb; unfold oneYearMs; omega)]
    rw [h]
    have hd : decide (intAbs (now - od.t) ≤ maxTimeDiffMs) = true :=
      decide_eq_true (intAbs_le.mpr ⟨hta, htb⟩)
    rw [hd]

/-- The legacy analogue of `validateOpt_time_shift`: the date checks depend
only on the record's own timestamp, so acceptance at the record timestamp
pins every clock-independent check. -/
theorem validateUptime_time_shift (u mu t : Int) (date : String) (now : Int)
    (h : validateUptimeSubmission u mu t date t = true) :
    validateUptimeSubmission u mu t date now
      = decide (intAbs (now - t) ≤ maxTimeDiffMs) := by
  unfold validateUptimeSubmission at h ⊢
  by_cases hu : u ≤ 0 ∨ u > maxUptimeSeconds
  · rw [if_pos hu] at h
    exact absurd h (by simp)
  rw [if_neg hu] at h ⊢
  by_cases hm : mu < 0 ∨ mu > 100
  · rw [if_pos hm] at h
    exact absurd h (by simp)
  rw [if_neg hm] at h ⊢
  rw [if_neg (show ¬ intAbs (t - t) > maxTimeDiffMs from by
    unfold intAbs maxTimeDiffMs; split <;> omega)] at h
  by_cases hf : (!isValidDateFormat date) = true
  · rw [if_pos hf] at h
    exact absurd h (by simp)
  rw [if_neg hf] at h ⊢
  by_cases hdc : (!isDateConsistentWithTimestamp date t) = true
  · rw [if_pos hdc] at h
    exact absurd h (by simp)
  rw [if_neg hdc] at h ⊢
  rw [if_neg (show ¬ t > t + oneYearMs from by unfold oneYearMs; omega)] at h
  rw [if_neg (show ¬ t < t - oneYearMs from by unfold oneYearMs; omega)] at h
  by_cases ht : intAbs (now - t) > maxTimeDiffMs
  · rw [if_pos ht]
    have hd : decide (intAbs (now - t) ≤ maxTimeDiffMs) = false := by
      simp
      omega
    rw [hd]
  · rw [if_neg ht]
    rw [not_lt] at ht
    obtain ⟨hta, htb⟩ := intAbs_le.mp ht
    rw [if_neg (show ¬ t > now + oneYearMs from by
      unfold maxTimeDiffMs at hta htb; unfold oneYearMs; omega)]
    rw [if_neg (show ¬ t < now - oneYearMs from by
      unfold maxTimeDiffMs at hta htb; unfold oneYearMs; omega)]
    rw [h]
    have hd : decide (intAbs (now - t) ≤ maxTimeDiffMs) = true :=
      decide_eq_true (intAbs_le.mpr ⟨hta, htb⟩)
    rw [hd]

/-- C6.  Timestamp tolerance: a submission (optimized or legacy) that is
valid apart from the clock — it is accepted when the validator clock equals
its own timestamp — is accepted at clock `now` exactly when the absolute
difference is within six hours; in particular a difference beyond one year
is rejected. -/
theorem claim_C6_timestamp_tolerance :
    (∀ (s : String) (v : JVal) (od : OptData) (round : Int) (key : String) (now : Int),
      jparse s = some v → decodeOptDataE v = Except.ok (some od) →
      validateOptimizedSubmissionE od od.t = Except.ok true →
      ¬ round < 0 → key ≠ "" →
      ((audit (some s) round (some key) now = true ↔ intAbs (now - od.t) ≤ maxTimeDiffMs)
        ∧ (intAbs (now - od.t) > oneYearMs →
            audit (some s) round (some key) now = false)))
    ∧ (∀ (s : String) (v : JVal) (u mu t : Int) (date : String) (round : Int)
        (key : String) (now : Int),
      jparse s = some v → decodeOptDataE v = Except.ok none →
      decodeUptimeData v = some (u, mu, t, date) →
      validateUptimeSubmission u mu t date t = true →
      ¬ round < 0 → key ≠ "" →
      ((audit (some s) round (some key) now = true ↔ intAbs (now - t) ≤ maxTimeDiffMs)
        ∧ (intAbs (now - t) > oneYearMs →
            audit (some s) round (some key) now = false))) := by
  constructor
  · intro s v od round key now hp hd hval hr hk
    have hroute : audit (some s) round (some key) now
        = decide (intAbs (now - od.t) ≤ maxTimeDiffMs) := by
      rw [audit_parse_route round key now hp hr hk]
      unfold auditFormatsE
      rw [hd]
      dsimp only
      rw [validateOpt_time_shift od now hval]
    constructor
    · rw [hroute]
      simp
    · intro hy
      rw [hroute]
      simp only [decide_eq_false_iff_not]
      unfold oneYearMs at hy
      unfold maxTimeDiffMs
      simp
      omega
  · intro s v u mu t date round key now hp hd hud hval hr hk
    have hroute : audit (some s) round (some key) now
        = decide (intAbs (now - t) ≤ maxTimeDiffMs) := by
      rw [audit_parse_route round key now hp hr hk]
      unfold auditFormatsE
      rw [hd]
      dsimp only
      rw [hud]
      dsimp only
      rw [validateUptime_time_shift u mu t date now hval]
    constructor
    · rw [hroute]
      simp
    · intro hy
      rw [hroute]
      simp only [decide_eq_false_iff_not]
      unfold oneYearMs at hy
      unfold maxTimeDiffMs
      simp
      omega

/-- The payload the C6 witness validates at the exact edge of the window. -/
def optAcceptC6 : JVal :=
  .obj [("d", .obj [("u", .num 7)]),
        ("m", .obj [("sc", .bool false), ("t", .num 1760000000000), ("r", .num 9)])]

/-- Witness for C6: the boundary clock at exactly six hours after the
record timestamp is accepted. -/
theorem claim_C6_timestamp_tolerance_witness :
    audit (some (jrender optAcceptC6)) 9 (some "k") (1760000000000 + 21600000) = true := by
  have h := (claim_C6_timestamp_tolerance.1 _ optAcceptC6
    ⟨none, 7, false, 1760000000000, 9, none⟩ 9 "k" (1760000000000 + 21600000)
    (jparse_jrender _) rfl rfl (by omega) (by decide)).1
  exact h.mpr (by decide)

theorem isStrOpt_exists {o : Option JVal} (h : isStrOpt o = true) :
    ∃ d, o = some (.str d) := by
  match o, h with
  | some (.str d), _ => exact ⟨d, rfl⟩

/-- C10.  Hardware-branch acceptance, amended: a JSON-object submission
with a truthy `cpu`/`memory`/`storage`/`network` field, a numeric
`timestamp` within six hours of the clock, and a string `date` is accepted
by `audit` — with no bounds check on any hardware value, no liveness check,
and no date-consistency check — provided it is not first captured by the
optimized-format guard (the classification ladder tries that guard before
the hardware one). -/
theorem claim_C10_hardware_branch (s : String) (v : JVal) (t round : Int)
    (key : String) (now : Int)
    (hp : jparse s = some v)
    (hopt : decodeOptDataE v = Except.ok none)
    (hhw : isHardwareSubmission v = true)
    (ht : v.getF "timestamp" = some (.num t))
    (hwnd : intAbs (now - t) ≤ maxTimeDiffMs)
    (hr : ¬ round < 0) (hk : key ≠ "") :
    audit (some s) round (some key) now = true := by
  have hhw' := hhw
  simp only [isHardwareSubmission, Bool.and_eq_true] at hhw'
  obtain ⟨⟨⟨_, htruthy⟩, _⟩, hdate⟩ := hhw'
  obtain ⟨d, hd⟩ := isStrOpt_exists hdate
  have hform : auditFormatsE v now = Except.ok true := by
    unfold auditFormatsE
    rw [hopt]
    dsimp only
    rw [decodeUptimeData_none_of_hardware htruthy]
    dsimp only
    rw [if_pos hhw]
    unfold validateHardwareSubmission
    rw [ht, hd]
    dsimp only
    refine congrArg Except.ok ?_
    simp only [Bool.not_eq_true', decide_eq_false_iff_not, not_lt]
    exact hwnd
  rw [audit_parse_route round key now hp hr hk, hform]

/-- A hardware-only payload: truthy `cpu`, in-window numeric `timestamp`,
string `date`, and nothing the optimized guard could latch onto. -/
def hwOnly : JVal :=
  .obj [("cpu", .str "x"), ("timestamp", .num 1760000000000),
        ("date", .str "2026-10-11")]

/-- Witness for C10: the hardware-only payload is accepted at its own
timestamp. -/
theorem claim_C10_hardware_branch_witness :
    audit (some (jrender hwOnly)) 3 (some "k") 1760000000000 = true :=
  claim_C10_hardware_branch _ hwOnly 1760000000000 3 "k" 1760000000000
    (jparse_jrender _) rfl rfl rfl (by decide) (by omega) (by decide)

/-- A payload satisfying every condition of the literal C10 claim — truthy
`cpu`, in-window numeric `timestamp`, string `date` — that the optimized
guard nevertheless captures first, via its `d.u`/`m` fields. -/
def hwOptMix : JVal :=
  .obj [("cpu", .str "x"), ("timestamp", .num 1760000000000),
        ("date", .str "2026-10-11"),
        ("d", .obj [("u", .num 0)]),
        ("m", .obj [("sc", .bool false), ("t", .num 1760000000000), ("r", .num 1)])]

/-- Counterexample to the literal C10 claim: `hwOptMix` meets all the
stated hardware-branch conditions at clock equal to its timestamp, yet
`audit` rejects it — the optimized guard claims the object first and its
zero uptime fails the liveness bound the hardware branch would have
skipped. -/
theorem claim_C10_counterexample :
    isHardwareSubmission hwOptMix = true
      ∧ hwOptMix.getF "timestamp" = some (.num 1760000000000)
      ∧ hwOptMix.getF "date" = some (.str "2026-10-11")
      ∧ intAbs (1760000000000 - 1760000000000) ≤ maxTimeDiffMs
      ∧ audit (some (jrender hwOptMix)) 1 (some "k") 1760000000000 = false := by
  refine ⟨by decide, rfl, rfl, by decide, ?_⟩
  exact audit_reject 1 (some "k") 1760000000000 (jparse_jrender hwOptMix) rfl

/-- A 600-character string, as an adversarial `uptime` field value. -/
def upA : String := String.mk (List.replicate 600 'a')

/-- A stored legacy uptime record whose `uptime` field is the oversized
string `upA`.  (The legacy serialization path never validates the record,
so the zeroed numeric fields are irrelevant to the path taken.) -/
def up0 : JVal :=
  .obj [("uptime", .str upA), ("monthlyUptime", .num 0),
        ("timestamp", .num 0), ("date", .str "2026-10-11")]

set_option maxRecDepth 20000 in
/-- C3.  Encoder size bound, refuted: with no structured store and the
stored legacy record `up0`, the encoder's own truncation branch carries the
unbounded `uptime` field into its output, which is 647 bytes — past the
claimed 512-byte ceiling. -/
theorem claim_C3_encoder_size_bug :
    (submission 1 none (some up0) 0 "2026-10-11").length = 647
      ∧ 512 < (submission 1 none (some up0) 0 "2026-10-11").length := by
  constructor
  · rfl
  · rw [show (submission 1 none (some up0) 0 "2026-10-11").length = 647 from rfl]
    omega

/-- A 44-character wallet address. -/
def walletW : String := String.mk (List.replicate 44 'W')

/-- A 271-character architecture label — the `a` field is the one static
string the encoder does not truncate. -/
def archA : String := String.mk (List.replicate 271 'a')

/-- A stored `taskSubmissionData` JSON whose encoded payload overflows the
512-byte budget by one byte.  (Zeroed numerics keep the record concrete;
the encoder never validates them.) -/
def tv0 : JVal :=
  .obj [
    ("dynamic", .obj [("uptime", .num 0)]),
    ("metadata", .obj [("staticChanged", .bool true), ("nodeWallet", .str walletW),
                       ("timestamp", .num 0), ("roundNumber", .num 0)]),
    ("static", .obj [
      ("wanIp", .str "1.2.3.4"), ("lanIp", .str "10.0.0.5"),
      ("cpu", .obj [("model", .str "TestCPU"), ("coresPhysical", .num 0)]),
      ("ram", .obj [("totalMB", .num 0), ("type", .str "DDR4")]),
      ("storage", .obj [("totalGB", .num 0), ("deviceCount", .num 0)]),
      ("gpu", .obj [("present", .bool false), ("vendor", .str "NV")]),
      ("os", .obj [("platform", .str "Linux"), ("isVirtual", .bool false)]),
      ("network", .obj [("nicModel", .str "eth")]),
      ("system", .obj [("arch", .str archA), ("hostname", .str "host")])])]

/-- The typed view `decodeTaskData` extracts from `tv0`. -/
def td0 : TaskSubmissionData :=
  ⟨some ⟨"1.2.3.4", "10.0.0.5", ⟨"TestCPU", 0⟩, ⟨0, some "DDR4"⟩, ⟨0, 0⟩,
    ⟨false, some "NV"⟩, ⟨"Linux", false⟩, ⟨some "eth"⟩, ⟨archA, "host"⟩⟩,
   ⟨0⟩, ⟨true, walletW, 0, 0⟩⟩

/-- On overflow of the optimized payload, `submission` switches wholesale
to the legacy uptime store. -/
theorem submission_overflow (round : Int) (ts : String) (tv : JVal)
    (td : TaskSubmissionData) (us : Option JVal) (now : Int) (today : String)
    (hr : ¬ round < 0) (hp : jparse ts = some tv) (hd : decodeTaskData tv = some td)
    (hover : ¬ (jrender (createOptimizedSubmission td)).length ≤ 512) :
    submission round (some ts) us now today = submissionLegacy us now today := by
  unfold submission
  rw [if_neg hr]
  dsimp only
  rw [if_neg (jparse_some_ne_empty hp), hp]
  dsimp only
  rw [hd]
  dsimp only
  rw [if_neg hover]

/-- C4.  Degradation on overflow, amended: when the encoded optimized
payload exceeds 512 bytes, the encoder abandons the structured store
wholesale and re-encodes from the legacy uptime store — there is no
wallet-drop or further-truncation rung; the claimed ladder does not exist
in the code. -/
theorem claim_C4_degradation_ladder (round : Int) (ts : String) (tv : JVal)
    (td : TaskSubmissionData) (us : Option JVal) (now : Int) (today : String)
    (hr : ¬ round < 0) (hp : jparse ts = some tv) (hd : decodeTaskData tv = some td)
    (hover : 512 < (jrender (createOptimizedSubmission td)).length) :
    submission round (some ts) us now today = submissionLegacy us now today :=
  submission_overflow round ts tv td us now today hr hp hd (by omega)

set_option maxRecDepth 100000 in
/-- Witness for C4: the overflowing store `tv0` makes the encoder emit the
legacy fallback. -/
theorem claim_C4_degradation_ladder_witness :
    submission 1 (some (jrender tv0)) none 0 "2026-10-11"
      = submissionLegacy none 0 "2026-10-11" :=
  claim_C4_degradation_ladder 1 (jrender tv0) tv0 td0 none 0 "2026-10-11"
    (by omega) (jparse_jrender tv0) rfl (by decide)

set_option maxRecDepth 100000 in
/-- Counterexample to the literal C4 claim: for `td0` the claimed first
rung of the ladder — dropping the sender address — would have produced an
in-budget 462-byte payload, yet the encoder's output is not that payload
(it is the legacy fallback). -/
theorem claim_C4_counterexample :
    512 < (jrender (createOptimizedSubmission td0)).length
      ∧ (jrender (ladderDropWallet td0)).length ≤ 512
      ∧ submission 1 (some (jrender tv0)) none 0 "2026-10-11"
          ≠ jrender (ladderDropWallet td0) := by
  refine ⟨by decide, by decide, ?_⟩
  rw [submission_overflow 1 (jrender tv0) tv0 td0 none 0 "2026-10-11"
    (by omega) (jparse_jrender tv0) rfl (by decide)]
  decide

/-- The static block the encoder derives from a stored snapshot, as the
validator sees it after the JSON round trip. -/
def sbOf (st : TaskStatic) : OptStatic :=
  ⟨jsSubstring st.wanIp 15, jsSubstring st.lanIp 15, jsSubstring st.cpu.model 25,
   st.cpu.coresPhysical, jsRoundDiv1024 st.ram.totalMB, jsOrStr st.ram.ramType 10 "Unknown",
   st.storage.totalGB, jsSubstring st.os.platform 10, st.system.arch,
   some (.num st.storage.deviceCount),
   some (.num (if st.gpu.present then 1 else 0)),
   some (.str (jsOrStr st.gpu.vendor 10 "")),
   some (.num (if st.os.isVirtual then 1 else 0)),
   some (.str (jsOrStr st.network.nicModel 15 "")),
   some (.str (jsSubstring st.system.hostname 20))⟩

/-- The wallet field the encoder emits. -/
def wOf (td : TaskSubmissionData) : Option JVal :=
  if td.metadata.nodeWallet ≠ "" ∧ td.metadata.nodeWallet ≠ "unknown"
  then some (.str (jsSubstring td.metadata.nodeWallet 44)) else none

/-- The typed view the optimized-format guard extracts from an encoded
payload. -/
def odOf (td : TaskSubmissionData) : OptData :=
  ⟨match td.static, td.metadata.staticChanged with
    | some st, true => some (sbOf st)
    | _, _ => none,
   td.dynamic.uptime, td.metadata.staticChanged, td.metadata.timestamp,
   td.metadata.roundNumber, wOf td⟩

/-- The encoder's payload decodes back through the optimized-format guard
to exactly the derived view — the encode/decode agreement at the heart of
the round trip. -/
theorem decodeOptDataE_create (td : TaskSubmissionData) :
    decodeOptDataE (createOptimizedSubmission td) = Except.ok (some (odOf td)) := by
  rcases td with ⟨st, ⟨u⟩, ⟨sc, wal, ts, rn⟩⟩
  unfold createOptimizedSubmission decodeOptDataE odOf wOf sbOf
  dsimp only
  by_cases hwp : wal ≠ "" ∧ wal ≠ "unknown" <;>
  rcases st with _ | st <;> rcases sc with _ | _ <;>
  simp [hwp, JVal.getF, JVal.getF2, fieldGet, JVal.isObjectType, JVal.isNull]

theorem jsSubstring_length (s : String) (k : Nat) :
    (jsSubstring s k).length = min k s.length := by
  unfold jsSubstring
  show (s.data.take k).length = min k s.data.length
  exact List.length_take k s.data

theorem trim_witness_ne (s : String) (h : jsTrim s ≠ "") : s ≠ "" := by
  intro hs
  subst hs
  exact h (by decide)

/-- The derived static block passes every static-field check, given the
snapshot bounds: nonempty non-sentinel addresses, nonblank CPU model and
RAM type, numeric fields in range, a recognized OS substring and
architecture label, and a nonblank hostname.  Length ceilings (CPU model
50, hostname 30, wallet 44) hold automatically because the encoder
truncates below them. -/
theorem staticChecksE_sbOf (st : TaskStatic)
    (hw : jsSubstring st.wanIp 15 ≠ "" ∧ jsSubstring st.wanIp 15 ≠ "unknown")
    (hl : jsSubstring st.lanIp 15 ≠ "" ∧ jsSubstring st.lanIp 15 ≠ "unknown")
    (hc : jsTrim (jsSubstring st.cpu.model 25) ≠ "")
    (hcp : 1 ≤ st.cpu.coresPhysical ∧ st.cpu.coresPhysical ≤ 256)
    (hr : 1 ≤ jsRoundDiv1024 st.ram.totalMB ∧ jsRoundDiv1024 st.ram.totalMB ≤ 2048)
    (hrt : jsTrim (jsOrStr st.ram.ramType 10 "Unknown") ≠ "")
    (hst : 1 ≤ st.storage.totalGB ∧ st.storage.totalGB ≤ 100000)
    (hsd : 1 ≤ st.storage.deviceCount ∧ st.storage.deviceCount ≤ 20)
    (ho : validOSTypes.any (fun os => strIncludes (jsSubstring st.os.platform 10) os) = true)
    (ha : validArchs.contains st.system.arch = true)
    (hh : jsTrim (jsSubstring st.system.hostname 20) ≠ "") :
    staticChecksE (sbOf st) = Except.ok true := by
  unfold staticChecksE sbOf
  dsimp only
  rw [if_neg (by push_neg; exact hw)]
  rw [if_neg (by push_neg; exact hl)]
  rw [if_neg (by
    push_neg
    refine ⟨trim_witness_ne _ hc, hc, ?_⟩
    have := jsSubstring_length st.cpu.model 25
    omega)]
  rw [if_neg (by omega)]
  rw [if_neg (by omega)]
  rw [if_neg (by push_neg; exact ⟨trim_witness_ne _ hrt, hrt⟩)]
  rw [if_neg (by omega)]
  rw [if_neg (by
    simp only [jsLtNum, jsGtNum, jsToNumber]
    simp only [Bool.or_eq_true, decide_eq_true_eq]
    omega)]
  rw [if_neg (by
    rcases st.gpu.present with _ | _ <;> simp [isNumVal])]
  rw [if_neg (by simp [ho])]
  rw [if_neg (by
    rcases st.os.isVirtual with _ | _ <;> simp [isNumVal])]
  have ha' : st.system.arch ∈ validArchs := by simpa using ha
  rw [if_neg (by simp [ha'])]
  rw [if_neg (by
    simp only [truthyOpt, JVal.truthy, Bool.not_eq_true', bne_eq_false_iff_eq]
    exact trim_witness_ne _ hh)]
  rw [if_neg (by
    push_neg
    refine ⟨hh, ?_⟩
    have := jsSubstring_length st.system.hostname 20
    omega)]

/-- The emitted wallet field passes the trailing wallet check when the
stored wallet is empty, the `unknown` sentinel, or at least 32 characters
(the emitted value is truncated to at most 44). -/
theorem walletCheck_wOf (td : TaskSubmissionData)
    (h : td.metadata.nodeWallet = "" ∨ td.metadata.nodeWallet = "unknown"
         ∨ 32 ≤ td.metadata.nodeWallet.length) :
    walletCheck (wOf td) = true := by
  unfold walletCheck wOf
  by_cases hwp : td.metadata.nodeWallet ≠ "" ∧ td.metadata.nodeWallet ≠ "unknown"
  · rw [if_pos hwp]
    have hlen : 32 ≤ td.metadata.nodeWallet.length := by tauto
    have hsub := jsSubstring_length td.metadata.nodeWallet 44
    rw [if_pos (by
      simp only [truthyOpt, JVal.truthy, bne_iff_ne, ne_eq, decide_eq_true_eq]
      intro he
      rw [he] at hsub
      have : ("" : String).length = 0 := rfl
      omega)]
    simp only [jsLengthOf]
    simp only [Bool.not_eq_true', Bool.or_eq_false_iff, decide_eq_false_iff_not, not_lt]
    constructor
    · omega
    · omega
  · rw [if_neg hwp]
    simp [truthyOpt]

/-- The optimized validator accepts the derived view of any snapshot whose
fields are within bounds: positive bounded uptime, a timestamp within the
window, a bounded round, flag/static agreement, passing static checks when
the block is present, and a passing wallet. -/
theorem validateOpt_odOf (td : TaskSubmissionData) (now : Int)
    (hu : 0 < td.dynamic.uptime ∧ td.dynamic.uptime ≤ maxUptimeSeconds)
    (ht : intAbs (now - td.metadata.timestamp) ≤ maxTimeDiffMs)
    (hrn : 0 ≤ td.metadata.roundNumber ∧ td.metadata.roundNumber ≤ 1000000)
    (hflag : td.metadata.staticChanged = true → td.static.isSome = true)
    (hstat : ∀ st, td.static = some st → td.metadata.staticChanged = true →
       staticChecksE (sbOf st) = Except.ok true)
    (hwal : walletCheck (wOf td) = true) :
    validateOptimizedSubmissionE (odOf td) now = Except.ok true := by
  obtain ⟨h1, h2⟩ := intAbs_le.mp ht
  unfold validateOptimizedSubmissionE odOf
  dsimp only
  rw [if_neg (by push_neg; omega)]
  rw [if_neg (not_lt.mpr ht)]
  rw [if_neg (by unfold maxTimeDiffMs at h1 h2; unfold oneYearMs; omega)]
  rw [if_neg (by unfold maxTimeDiffMs at h1 h2; unfold oneYearMs; omega)]
  rw [if_neg (by push_neg; omega)]
  cases hs : td.static with
  | none =>
      cases hsc : td.metadata.staticChanged with
      | true =>
          exact absurd (hflag hsc) (by rw [hs]; decide)
      | false =>
          rw [if_neg (by simp), if_neg (by simp)]
          dsimp only
          rw [hwal]
  | some st =>
      cases hsc : td.metadata.staticChanged with
      | false =>
          rw [if_neg (by simp), if_neg (by simp)]
          dsimp only
          rw [hwal]
      | true =>
          rw [if_neg (by simp), if_neg (by simp)]
          dsimp only
          rw [hstat st hs hsc]
          dsimp only
          rw [hwal]

/-- When the optimized payload fits the budget, `submission` returns
exactly that payload. -/
theorem submission_fit (round : Int) (ts : String) (tv : JVal)
    (td : TaskSubmissionData) (us : Option JVal) (now : Int) (today : String)
    (hr : ¬ round < 0) (hp : jparse ts = some tv) (hd : decodeTaskData tv = some td)
    (hfit : (jrender (createOptimizedSubmission td)).length ≤ 512) :
    submission round (some ts) us now today = jrender (createOptimizedSubmission td) := by
  unfold submission
  rw [if_neg hr]
  dsimp only
  rw [if_neg (jparse_some_ne_empty hp), hp]
  dsimp only
  rw [hd]
  dsimp only
  rw [if_pos hfit]

/-- C1.  Round trip, amended: for a valid liveness value and a stored
snapshot whose fields lie within the validator's bounds (so that the
derived static block and wallet pass their checks), *and whose encoded
payload fits the 512-byte budget*, encoding through `submission` at a
nonnegative round and validating the result through `audit` with any
nonempty key — at a clock within the timestamp window — returns `true`.
The fit proviso is genuinely needed: a snapshot can satisfy every
validator bound and still overflow the budget through JSON string
escaping, whereupon the encoder abandons it for the legacy store and the
round trip fails (see the counterexample below). -/
theorem claim_C1_round_trip (round : Int) (ts : String) (tv : JVal)
    (td : TaskSubmissionData) (us : Option JVal) (now : Int) (today key : String)
    (hr : ¬ round < 0) (hk : key ≠ "")
    (hp : jparse ts = some tv) (hd : decodeTaskData tv = some td)
    (hfit : (jrender (createOptimizedSubmission td)).length ≤ 512)
    (hu : 0 < td.dynamic.uptime ∧ td.dynamic.uptime ≤ maxUptimeSeconds)
    (ht : intAbs (now - td.metadata.timestamp) ≤ maxTimeDiffMs)
    (hrn : 0 ≤ td.metadata.roundNumber ∧ td.metadata.roundNumber ≤ 1000000)
    (hflag : td.metadata.staticChanged = true → td.static.isSome = true)
    (hstat : ∀ st, td.static = some st → td.metadata.staticChanged = true →
       staticChecksE (sbOf st) = Except.ok true)
    (hwal : walletCheck (wOf td) = true) :
    audit (some (submission round (some ts) us now today)) round (some key) now = true := by
  rw [submission_fit round ts tv td us now today hr hp hd hfit]
  rw [audit_parse_route round key now (jparse_jrender _) hr hk]
  unfold auditFormatsE
  rw [decodeOptDataE_create]
  dsimp only
  rw [validateOpt_odOf td now hu ht hrn hflag hstat hwal]

/-- A stored snapshot record with every field within the validator's
bounds. -/
def tvW : JVal :=
  .obj [
    ("dynamic", .obj [("uptime", .num 12345)]),
    ("metadata", .obj [("staticChanged", .bool true),
                       ("nodeWallet", .str (String.mk (List.replicate 40 'W'))),
                       ("timestamp", .num 1760000000000), ("roundNumber", .num 3)]),
    ("static", .obj [
      ("wanIp", .str "1.2.3.4"), ("lanIp", .str "10.0.0.5"),
      ("cpu", .obj [("model", .str "TestCPU"), ("coresPhysical", .num 4)]),
      ("ram", .obj [("totalMB", .num 2048), ("type", .str "DDR4")]),
      ("storage", .obj [("totalGB", .num 512), ("deviceCount", .num 2)]),
      ("gpu", .obj [("present", .bool true), ("vendor", .str "NV")]),
      ("os", .obj [("platform", .str "Linux"), ("isVirtual", .bool false)]),
      ("network", .obj [("nicModel", .str "eth0")]),
      ("system", .obj [("arch", .str "x64"), ("hostname", .str "host")])])]

/-- The typed view of `tvW`. -/
def tdW : TaskSubmissionData :=
  ⟨some ⟨"1.2.3.4", "10.0.0.5", ⟨"TestCPU", 4⟩, ⟨2048, some "DDR4"⟩, ⟨512, 2⟩,
    ⟨true, some "NV"⟩, ⟨"Linux", false⟩, ⟨some "eth0"⟩, ⟨"x64", "host"⟩⟩,
   ⟨12345⟩, ⟨true, String.mk (List.replicate 40 'W'), 1760000000000, 3⟩⟩

set_option maxRecDepth 100000 in
/-- Witness for C1: the concrete snapshot `tvW` encodes and validates to
`true` at its own timestamp. -/
theorem claim_C1_round_trip_witness :
    audit (some (submission 3 (some (jrender tvW)) none 1760000000000 "2026-10-11"))
      3 (some "k") 1760000000000 = true :=
  claim_C1_round_trip 3 (jrender tvW) tvW tdW none 1760000000000 "2026-10-11" "k"
    (by omega) (by decide) (jparse_jrender tvW) rfl (by decide)
    (by decide) (by decide) (by decide) (fun _ => rfl)
    (fun st hst _ => by cases hst; rfl) rfl

/-- A string of `k` `U+0001` characters: not whitespace, so it survives
every `trim` check, yet each renders as the six-byte escape `\u0001`. -/
def ctrlStr (k : Nat) : String := String.mk (List.replicate k (Char.ofNat 1))

/-- A snapshot whose every field lies within the validator's bounds — the
control characters are non-whitespace, the truncated lengths respect every
ceiling, OS and architecture labels are recognized, and the wallet is 44
characters — but whose rendered payload is inflated far past 512 bytes by
the escapes. -/
def stC : TaskStatic :=
  ⟨ctrlStr 15, ctrlStr 15, ⟨ctrlStr 25, 4⟩, ⟨2048, some (ctrlStr 10)⟩, ⟨512, 2⟩,
   ⟨true, some (ctrlStr 10)⟩, ⟨"Linux", false⟩, ⟨some (ctrlStr 15)⟩, ⟨"x64", ctrlStr 20⟩⟩

/-- The stored record around `stC`, with valid liveness and metadata. -/
def tdC : TaskSubmissionData :=
  ⟨some stC, ⟨12345⟩, ⟨true, ctrlStr 44, 1760000000000, 3⟩⟩

/-- The stored task JSON that decodes to `tdC`. -/
def tvC : JVal :=
  .obj [
    ("dynamic", .obj [("uptime", .num 12345)]),
    ("metadata", .obj [("staticChanged", .bool true),
                       ("nodeWallet", .str (ctrlStr 44)),
                       ("timestamp", .num 1760000000000), ("roundNumber", .num 3)]),
    ("static", .obj [
      ("wanIp", .str (ctrlStr 15)), ("lanIp", .str (ctrlStr 15)),
      ("cpu", .obj [("model", .str (ctrlStr 25)), ("coresPhysical", .num 4)]),
      ("ram", .obj [("totalMB", .num 2048), ("type", .str (ctrlStr 10))]),
      ("storage", .obj [("totalGB", .num 512), ("deviceCount", .num 2)]),
      ("gpu", .obj [("present", .bool true), ("vendor", .str (ctrlStr 10))]),
      ("os", .obj [("platform", .str "Linux"), ("isVirtual", .bool false)]),
      ("network", .obj [("nicModel", .str (ctrlStr 15))]),
      ("system", .obj [("arch", .str "x64"), ("hostname", .str (ctrlStr 20))])])]

set_option maxRecDepth 200000 in
/-- Counterexample to the literal C1 claim: the snapshot `tdC` satisfies
every validator bound of the claim — positive bounded liveness, in-window
timestamp, bounded round, flag/static agreement, passing static checks and
wallet — yet its encoded payload is 1108 bytes, so `submission` falls back
to the legacy store and `audit` rejects the result: the round trip fails
without the fit proviso. -/
theorem claim_C1_counterexample :
    (0 < tdC.dynamic.uptime ∧ tdC.dynamic.uptime ≤ maxUptimeSeconds)
      ∧ intAbs (1760000000000 - tdC.metadata.timestamp) ≤ maxTimeDiffMs
      ∧ (0 ≤ tdC.metadata.roundNumber ∧ tdC.metadata.roundNumber ≤ 1000000)
      ∧ tdC.static = some stC
      ∧ tdC.metadata.staticChanged = true
      ∧ staticChecksE (sbOf stC) = Except.ok true
      ∧ walletCheck (wOf tdC) = true
      ∧ decodeTaskData tvC = some tdC
      ∧ 512 < (jrender (createOptimizedSubmission tdC)).length
      ∧ audit (some (submission 3 (some (jrender tvC)) none 1760000000000 "2026-10-11"))
          3 (some "k") 1760000000000 = false := by
  refine ⟨by decide, by decide, by decide, rfl, rfl, rfl, rfl, rfl, by decide, ?_⟩
  rw [submission_overflow 3 (jrender tvC) tvC tdC none 1760000000000 "2026-10-11"
    (by omega) (jparse_jrender tvC) rfl (by decide)]
  rw [show submissionLegacy none 1760000000000 "2026-10-11"
    = jrender (errorPayload "No data available" 1760000000000 "2026-10-11") from rfl]
  exact audit_reject 3 (some "k") 1760000000000 (jparse_jrender _) rfl
